import Mathlib

/-!
The fetch and download pipeline of `MainWindow`.

A shallow embedding of `src/ui/mainwindow.cpp`: the slots of `MainWindow` that
drive the album fetch (`on_parseBtn_clicked`, `OnGetAlbumInfoFinished`, the two
`GetTrackInfoRunnable::Succeed` lambdas, `AddAudioInfoItem`, the failure slots)
and the start of a download run (`on_startDownloadBtn_clicked`).

Modelling decisions.

* `QList<TrackInfo *>` is a list of addresses; the objects live in `heap`, so that
  `ai->ClearAllURL()` is an update in place of the object that `audioList_` then
  points to.  `qDeleteAll` releases memory and is not represented: no modelled
  operation reads an object after it was deleted.
* C++ `int` is `Int`; row indices and sizes are `Nat`.  Overflow of `int` is not
  represented (`audioList_.size() + 1` and the loop counter stay far below 2^31).
* `pool_` is the log of the runnables handed to `QThreadPool::start`, in submission
  order, each with the signal it has emitted so far.  A runnable emits one signal.
* Text shown in the status bar and in the title label, keyboard focus, the stored
  settings, the themes and the remaining slots write no field that the modelled
  slots read; they are left out.
-/

namespace Xmly

/-! ## The program -/

/-- Address of a heap object of class `TrackInfo` (a `TrackInfo *`). -/
abbrev TrackPtr := Nat

/-- Modelled from the spec: the class `TrackInfo`, declared outside
`mainwindow.cpp`.  The fields are the accessors that `mainwindow.cpp` calls:
`title()`, `trackID()`, `duration()`, `mp3URL64()`, `m4aURL64()`. -/
structure TrackInfo where
  title : String
  trackID : Int
  duration : Int
  mp3URL64 : String
  m4aURL64 : String
deriving DecidableEq, Repr

/-- Modelled from the spec: `TrackInfo::ClearAllURL`, declared outside
`mainwindow.cpp`; it empties the eagerly fetched URLs of the track and leaves the
other fields alone. -/
def TrackInfo.ClearAllURL (t : TrackInfo) : TrackInfo :=
  { t with mp3URL64 := "", m4aURL64 := "" }

/-- Modelled from the spec: `TrackInfo::isEmptyURL`, declared outside
`mainwindow.cpp`; the track has no usable eager URL and needs on-demand
resolution. -/
def TrackInfo.isEmptyURL (t : TrackInfo) : Bool :=
  t.mp3URL64.isEmpty && t.m4aURL64.isEmpty

/-- The struct `AlbumInfo` as far as `OnGetAlbumInfoFinished` reads it. -/
structure AlbumInfo where
  title : String
  trackCount : Int
  type : Int
deriving DecidableEq, Repr

/-- One row of `ui_->tableWidget`, columns 0 to 3 (title, duration, ID, URL). -/
structure TableRow where
  title : String
  duration : String
  id : String
  url : String
deriving DecidableEq, Repr

/-- The slot connected to `GetTrackInfoRunnable::Succeed` of a runnable. -/
inductive SucceedSlot where
  /-- the lambda of `OnGetAlbumInfoFinished` (lines 257-270) -/
  | firstPage
  /-- the lambda connected inside the loop (lines 262-265) -/
  | laterPage
deriving DecidableEq, Repr

/-- A runnable handed to `pool_->start`, with its constructor arguments. -/
inductive Runnable where
  | GetAlbumInfoRunnable (albumID : Int)
  | GetTrackInfoRunnable (albumID : Int) (page : Int) (isAsc : Bool) (slot : SucceedSlot)
deriving DecidableEq, Repr

/-- What a submitted runnable has reported: nothing yet, `Succeed` or `Failed`. -/
inductive JobStatus where
  | started
  | succeeded
  | failed
deriving DecidableEq, Repr

/-- An entry of the submission log of `pool_`. -/
structure PoolJob where
  runnable : Runnable
  status : JobStatus
deriving DecidableEq, Repr

/-- The part of the state of `MainWindow` (and of the globals of `mainwindow.cpp`)
that the fetch and download slots read or write. -/
structure MainWindow where
  /-- the `TrackInfo` objects, by address -/
  heap : TrackPtr → TrackInfo
  audioList_ : List TrackPtr
  /-- the rows of `ui_->tableWidget` -/
  tableWidget : List TableRow
  isAsc_ : Bool
  albumType : Int
  albumName_ : String
  extName : String
  isAddNum : Bool
  pool_ : List PoolJob
  /-- `ui_->parseBtn->isEnabled()` -/
  parseBtnEnabled : Bool
  /-- `ui_->startDownloadBtn->isEnabled()` -/
  startDownloadBtnEnabled : Bool
  /-- `timer_->isActive()` -/
  timerActive : Bool
  /-- the effect of `QString::replace(fileNameReg_, " ")`; the regular expression
  `fileNameReg_` is declared in `mainwindow.h` -/
  fileNameReg_ : String → String

/-- `QString::number(n)`. -/
def QString.number (n : Int) : String := toString n

/-- `QString::arg(n, 2, 10, QLatin1Char('0'))`: decimal, padded on the left with
the character 0 to two characters. -/
def QString.arg2 (n : Int) : String :=
  let s := toString n
  String.mk (List.replicate (2 - s.length) '0') ++ s

/-- `QStringLiteral("%1:%2").arg(minute, ...).arg(msec, ...)`. -/
def durationText (duration : Int) : String :=
  QString.arg2 (Int.tdiv duration 60) ++ ":" ++ QString.arg2 (Int.tmod duration 60)

/-- Writes through a pointer: the object at `p` becomes `t`. -/
def heapSet (h : TrackPtr → TrackInfo) (p : TrackPtr) (t : TrackInfo) : TrackPtr → TrackInfo :=
  fun q => if q = p then t else h q

/-- The body of the loop of `AddAudioInfoItem` (lines 288-316) for one `ai`. -/
def AddAudioInfoItem.body (w : MainWindow) (ai : TrackPtr) : MainWindow :=
  let heap1 := if w.albumType ≠ 1 then heapSet w.heap ai (w.heap ai).ClearAllURL else w.heap
  let row : TableRow :=
    { title := (w.heap ai).title
      duration := durationText (w.heap ai).duration
      id := QString.number (w.heap ai).trackID
      url := if "mp3" = w.extName then (heap1 ai).mp3URL64 else (heap1 ai).m4aURL64 }
  { w with heap := heap1, tableWidget := w.tableWidget ++ [row], audioList_ := w.audioList_ ++ [ai] }

/-- `MainWindow::AddAudioInfoItem` (lines 285-318). -/
def AddAudioInfoItem (w : MainWindow) (list : List TrackPtr) : MainWindow :=
  list.foldl AddAudioInfoItem.body { w with timerActive := true }

/-- `MainWindow::on_descCheckBox_stateChanged` (lines 132-134); `checked` is
`ui_->descCheckBox->isChecked()`. -/
def on_descCheckBox_stateChanged (w : MainWindow) (checked : Bool) : MainWindow :=
  { w with isAsc_ := !checked }

/-- `MainWindow::Timeout` (lines 126-129). -/
def Timeout (w : MainWindow) : MainWindow :=
  { w with parseBtnEnabled := true, startDownloadBtnEnabled := true }

/-- The lambda connected to `selectionChanged` (lines 41-54); `size` is the number
of selected rows. -/
def selectionChanged (w : MainWindow) (size : Nat) : MainWindow :=
  { w with startDownloadBtnEnabled := decide (size > 0) }

/-- `pool_->start(runnable)`: the runnable is appended to the submission log. -/
def poolStart (w : MainWindow) (r : Runnable) : MainWindow :=
  { w with pool_ := w.pool_ ++ [{ runnable := r, status := JobStatus.started }] }

/-- `MainWindow::on_parseBtn_clicked` (lines 146-171); `albumID` is
`ui_->idLineEdit->text().toInt()`. -/
def on_parseBtn_clicked (w : MainWindow) (albumID : Int) : MainWindow :=
  if 0 ≥ albumID then w
  else
    poolStart
      { w with
        startDownloadBtnEnabled := false
        audioList_ := []
        tableWidget := []
        parseBtnEnabled := false }
      (Runnable.GetAlbumInfoRunnable albumID)

/-- `MainWindow::OnGetAlbumInfoFinished` (lines 240-276). -/
def OnGetAlbumInfoFinished (w : MainWindow) (albumID : Int) (ai : AlbumInfo) : MainWindow :=
  poolStart
    { w with albumType := ai.type, albumName_ := w.fileNameReg_ ai.title }
    (Runnable.GetTrackInfoRunnable albumID 1 w.isAsc_ SucceedSlot.firstPage)

/-- `MainWindow::OnGetAlbumInfoFailed` (lines 279-283). -/
def OnGetAlbumInfoFailed (w : MainWindow) ( _err : String) : MainWindow :=
  { w with parseBtnEnabled := true }

/-- `MainWindow::OnGetAudioInfoFailed` (lines 321-325). -/
def OnGetAudioInfoFailed (w : MainWindow) ( _albumID : Int) ( _err : String) : MainWindow :=
  { w with parseBtnEnabled := true }

/-- The values of `i` in `for (int i = 2; i <= maxPageID; i++)`, in order. -/
def loopPages (maxPageID : Int) : List Int :=
  (List.range (maxPageID - 1).toNat).map (fun (k : Nat) => (k : Int) + 2)

/-- The body of the loop of the first-page lambda (lines 260-268) for one `i`:
`isAsc_` is read from the window when the runnable is constructed. -/
def firstPageSucceed.body (albumID : Int) (w : MainWindow) (i : Int) : MainWindow :=
  poolStart w (Runnable.GetTrackInfoRunnable albumID i w.isAsc_ SucceedSlot.laterPage)

/-- The lambda connected to `Succeed` of the page-1 runnable (lines 257-270). -/
def firstPageSucceed (w : MainWindow) (albumID maxPageID : Int) (list : List TrackPtr) :
    MainWindow :=
  (loopPages maxPageID).foldl (firstPageSucceed.body albumID) (AddAudioInfoItem w list)

/-- The lambda connected to `Succeed` of the runnables of pages 2.. (lines 262-265). -/
def laterPageSucceed (w : MainWindow) ( _albumID _maxPageID : Int) (list : List TrackPtr) :
    MainWindow :=
  AddAudioInfoItem w list

/-- What reaches the control thread: user actions, the timer and the signals of
the runnables.  `job` is the position of the emitting runnable in `pool_`. -/
inductive Event where
  | descCheckBox_stateChanged (checked : Bool)
  | parseBtn_clicked (albumID : Int)
  | selectionChanged (size : Nat)
  | addNumCheckBox_clicked (checked : Bool)
  | mp3RadioBtn_clicked
  | m4aRadioBtn_clicked
  | timeout
  | GetAlbumInfo_Succeed (job : Nat) (albumID : Int) (ai : AlbumInfo)
  | GetAlbumInfo_Failed (job : Nat) (err : String)
  | GetTrackInfo_Succeed (job : Nat) (albumID maxPageID : Int) (list : List TrackPtr)
  | GetTrackInfo_Failed (job : Nat) (albumID : Int) (err : String)
deriving DecidableEq, Repr

/-- Records the signal that the runnable at position `job` has emitted. -/
def setStatus (w : MainWindow) (job : Nat) (st : JobStatus) : MainWindow :=
  { w with pool_ := w.pool_.modify (fun j => { j with status := st }) job }

/-- The runnable at position `job` when it has not reported yet. -/
def startedJob (w : MainWindow) (job : Nat) : Option Runnable :=
  match w.pool_[job]? with
  | some { runnable := r, status := JobStatus.started } => some r
  | _ => none

/-- One turn of the event loop.  A click reaches `on_parseBtn_clicked` only while
the button is enabled, the timer fires only while it is active, and a signal is
delivered to the slot connected to the runnable that emits it, once per runnable;
an event that cannot occur in the state leaves the state as it is. -/
def step (w : MainWindow) : Event → MainWindow
  | Event.descCheckBox_stateChanged checked => on_descCheckBox_stateChanged w checked
  | Event.parseBtn_clicked albumID =>
      if w.parseBtnEnabled then on_parseBtn_clicked w albumID else w
  | Event.selectionChanged size => selectionChanged w size
  | Event.addNumCheckBox_clicked checked => { w with isAddNum := checked }
  | Event.mp3RadioBtn_clicked => { w with extName := "mp3" }
  | Event.m4aRadioBtn_clicked => { w with extName := "m4a" }
  | Event.timeout => if w.timerActive then Timeout w else w
  | Event.GetAlbumInfo_Succeed job albumID ai =>
      match startedJob w job with
      | some (Runnable.GetAlbumInfoRunnable _) =>
          OnGetAlbumInfoFinished (setStatus w job JobStatus.succeeded) albumID ai
      | _ => w
  | Event.GetAlbumInfo_Failed job err =>
      match startedJob w job with
      | some (Runnable.GetAlbumInfoRunnable _) =>
          OnGetAlbumInfoFailed (setStatus w job JobStatus.failed) err
      | _ => w
  | Event.GetTrackInfo_Succeed job albumID maxPageID list =>
      match startedJob w job with
      | some (Runnable.GetTrackInfoRunnable _ _ _ SucceedSlot.firstPage) =>
          firstPageSucceed (setStatus w job JobStatus.succeeded) albumID maxPageID list
      | some (Runnable.GetTrackInfoRunnable _ _ _ SucceedSlot.laterPage) =>
          laterPageSucceed (setStatus w job JobStatus.succeeded) albumID maxPageID list
      | _ => w
  | Event.GetTrackInfo_Failed job albumID err =>
      match startedJob w job with
      | some (Runnable.GetTrackInfoRunnable _ _ _ _) =>
          OnGetAudioInfoFailed (setStatus w job JobStatus.failed) albumID err
      | _ => w

/-- The state after a sequence of events. -/
def run (w : MainWindow) (evs : List Event) : MainWindow :=
  evs.foldl step w

/-- The window after the constructor (lines 19-83): no track, no row, nothing
submitted, the timer not started; the parse button is enabled and, with nothing
selected, the download button is not.  The objects that the runnables will deliver and the
values that `mainwindow.h` gives to the remaining members are parameters. -/
def MainWindow.initial (heap : TrackPtr → TrackInfo) (isAsc : Bool) (albumType : Int)
    (extName : String) (isAddNum : Bool) (fileNameReg : String → String) : MainWindow :=
  { heap := heap
    audioList_ := []
    tableWidget := []
    isAsc_ := isAsc
    albumType := albumType
    albumName_ := ""
    extName := extName
    isAddNum := isAddNum
    pool_ := []
    parseBtnEnabled := true
    startDownloadBtnEnabled := false
    timerActive := false
    fileNameReg_ := fileNameReg }

/-- The search of `GetIntWidth`: the first `w`, counting up, with `n ≤ 10 ^ w`. -/
def GetIntWidth.loop (n : Nat) : Nat → Nat → Nat
  | 0, w => w
  | fuel + 1, w => if n ≤ 10 ^ w then w else GetIntWidth.loop n fuel (w + 1)

/-- Modelled from the spec: `Utils::GetIntWidth`, declared in `utils.h`, which is
not part of the sources.  The spec gives the width for `N` tasks as
`ceil(log10(N+1))`, minimum 1, and the caller passes `size() + 1`: for the
argument `n` the result is the least width `w ≥ 1` with `n ≤ 10 ^ w`. -/
def GetIntWidth (n : Nat) : Nat :=
  GetIntWidth.loop n n 1

/-- What `on_startDownloadBtn_clicked` hands to the `DownloadQueueDialog`: the
arguments of the constructor, of `InitValue` and of the calls of
`AddDownloadTask`, in call order. -/
structure DownloadQueueDialog where
  cookie : String
  maxTaskCount : Int
  downloadDir : String
  extName : String
  isAddNum : Bool
  numWidth : Nat
  tasks : List (Nat × TrackPtr)
deriving DecidableEq, Repr

/-- `DownloadQueueDialog::AddDownloadTask(n, ai)`. -/
def DownloadQueueDialog.AddDownloadTask (d : DownloadQueueDialog) (n : Nat) (ai : TrackPtr) :
    DownloadQueueDialog :=
  { d with tasks := d.tasks ++ [(n, ai)] }

/-- `QList::at(i)`: defined inside the bounds of the list only. -/
def QList.at (l : List TrackPtr) (i : Nat) : Option TrackPtr :=
  l[i]?

/-- `MainWindow::on_startDownloadBtn_clicked` (lines 185-199) up to `exec()`.
`cookie`, `maxTaskCount` and `downloadDir` are what the settings and the spin box
hold at the call; `selectedRows` are the rows of
`selectionModel()->selectedRows(0)`, in the order of the iteration.  The result is
`none` when `audioList_.at` is called outside the list.  The global
`firstDownload`, which the slot sets and nothing reads, is left out. -/
def on_startDownloadBtn_clicked (w : MainWindow) (cookie : String) (maxTaskCount : Int)
    (downloadDir : String) (selectedRows : List Nat) : Option DownloadQueueDialog :=
  let dlQueueDialog : DownloadQueueDialog :=
    { cookie := cookie
      maxTaskCount := maxTaskCount
      downloadDir := downloadDir ++ "/" ++ w.albumName_
      extName := w.extName
      isAddNum := w.isAddNum
      numWidth := GetIntWidth (w.audioList_.length + 1)
      tasks := [] }
  selectedRows.foldlM
    (fun d row => (QList.at w.audioList_ row).map (fun ai => d.AddDownloadTask (row + 1) ai))
    dlQueueDialog

/-- The lambda of `getUrlAction` in `on_tableWidget_customContextMenuRequested`
(lines 212-225); `item` is the row of `itemAt(pos)`, if there is an item.  The
result is `none` when `audioList_.at` is called outside the list; otherwise it is
the track id for which a `GetDownloadUrlDialog` opens, if one opens. -/
def getUrlAction_triggered (w : MainWindow) (item : Option Nat) : Option (Option Int) :=
  match item with
  | none => some none
  | some row =>
      match QList.at w.audioList_ row with
      | none => none
      | some ai => if (w.heap ai).isEmptyURL then some (some (w.heap ai).trackID) else some none

/-! ## Observations of the state, predicates and example data -/

/-- The track ids of the visible list, in list order. -/
def trackIDs (w : MainWindow) : List Int :=
  w.audioList_.map (fun p => (w.heap p).trackID)

/-- A heap for the examples: the object at address `p` is a track with id
`100 + p % 2`, so that the objects at 0, 1 and at 2, 3 are the same two tracks. -/
def exampleHeap : TrackPtr → TrackInfo :=
  fun p =>
    { title := "track"
      trackID := 100 + (p % 2 : Nat)
      duration := 61
      mp3URL64 := "http://a/x.mp3"
      m4aURL64 := "http://a/x.m4a" }

/-- A window for the examples, right after the constructor: ascending order, album
type 1, extension mp3. -/
def exampleWindow : MainWindow :=
  MainWindow.initial exampleHeap true 1 "mp3" false id

/-- A window whose visible list holds ten tracks: the page with the objects at
0..9 was added after a fetch start. -/
def tenTrackWindow : MainWindow :=
  AddAudioInfoItem (on_parseBtn_clicked exampleWindow 12345) (List.range 10)

/-- Column 2 of the table, read from top to bottom, is the list of the ids of the
tracks of `audioList_`. -/
def tableShowsList (w : MainWindow) : Prop :=
  w.tableWidget.map TableRow.id = w.audioList_.map (fun p => QString.number (w.heap p).trackID)

/-- The states that the window can be in: the state after the constructor, and
every state that an event or a direct call of `on_parseBtn_clicked`, of
`AddAudioInfoItem` or of a failure slot leads to from such a state. -/
inductive Reachable : MainWindow → Prop
  | initial (heap : TrackPtr → TrackInfo) (isAsc : Bool) (albumType : Int) (extName : String)
      (isAddNum : Bool) (fileNameReg : String → String) :
      Reachable (MainWindow.initial heap isAsc albumType extName isAddNum fileNameReg)
  | event (w : MainWindow) (e : Event) : Reachable w → Reachable (step w e)
  | parseBtn (w : MainWindow) (albumID : Int) : Reachable w → Reachable (on_parseBtn_clicked w albumID)
  | addItems (w : MainWindow) (list : List TrackPtr) : Reachable w → Reachable (AddAudioInfoItem w list)
  | albumInfoFailed (w : MainWindow) (err : String) : Reachable w → Reachable (OnGetAlbumInfoFailed w err)
  | audioInfoFailed (w : MainWindow) (albumID : Int) (err : String) :
      Reachable w → Reachable (OnGetAudioInfoFailed w albumID err)

/-- The runnables handed to `pool_->start` so far, in submission order. -/
def runnables (w : MainWindow) : List Runnable :=
  w.pool_.map PoolJob.runnable

/-- The runnables that the handling of the event `e` in the state `w` submits. -/
def submitted (w : MainWindow) (e : Event) : List Runnable :=
  (runnables (step w e)).drop (runnables w).length

/-- The runnable whose signal the event is, if it is a signal. -/
def jobOf : Event → Option Nat
  | Event.GetAlbumInfo_Succeed job _ _ => some job
  | Event.GetAlbumInfo_Failed job _ => some job
  | Event.GetTrackInfo_Succeed job _ _ _ => some job
  | Event.GetTrackInfo_Failed job _ _ => some job
  | _ => none

/-- The slot of a track-page runnable fits its page: the first-page lambda is
connected to page 1, the lambda of the loop to a page from 2 on. -/
def Runnable.slotFitsPage : Runnable → Prop
  | Runnable.GetAlbumInfoRunnable _ => True
  | Runnable.GetTrackInfoRunnable _ page _ SucceedSlot.firstPage => page = 1
  | Runnable.GetTrackInfoRunnable _ page _ SucceedSlot.laterPage => 2 ≤ page

/-- Every track-page runnable of the log for a page from 2 on stands behind a
page-1 runnable that has reported success. -/
def laterPagesFollowSuccess (pool : List PoolJob) : Prop :=
  ∀ (k : Nat) (a i : Int) (f : Bool) (s : SucceedSlot) (st : JobStatus),
    pool[k]? = some (PoolJob.mk (Runnable.GetTrackInfoRunnable a i f s) st) →
    2 ≤ i →
    ∃ (j : Nat) (a1 : Int) (f1 : Bool), j < k ∧ pool[j]? = some
      (PoolJob.mk (Runnable.GetTrackInfoRunnable a1 1 f1 SucceedSlot.firstPage)
        JobStatus.succeeded)

/-- The invariant of the submission log. -/
def poolInv (w : MainWindow) : Prop :=
  (∀ r ∈ runnables w, r.slotFitsPage) ∧ laterPagesFollowSuccess w.pool_

/-- The events of the example fetch of album 12345 up to the submission of page 1:
the click on the parse button and the success of the album-info runnable. -/
def albumFetched : List Event :=
  [Event.parseBtn_clicked 12345,
   Event.GetAlbumInfo_Succeed 0 12345 { title := "album", trackCount := 25, type := 1 }]

/-- The events of a fetch of album 111 whose page 2 is still in flight when a fetch
of album 222 is started: the click, the album info, page 1 (of two pages), the
timer that enables the parse button again, and the second click. -/
def secondFetchStarted : List Event :=
  [Event.parseBtn_clicked 111,
   Event.GetAlbumInfo_Succeed 0 111 { title := "first", trackCount := 3, type := 1 },
   Event.GetTrackInfo_Succeed 1 111 2 [0, 1],
   Event.timeout,
   Event.parseBtn_clicked 222]

/-- The ascending flag a runnable was constructed with, for a track-page runnable. -/
def Runnable.ascFlag : Runnable → Option Bool
  | Runnable.GetAlbumInfoRunnable _ => none
  | Runnable.GetTrackInfoRunnable _ _ isAsc _ => some isAsc

/-- The events of the example fetch with the check box ticked between the
submission of page 1 and the success of page 1 (of three pages). -/
def toggledFetch : List Event :=
  albumFetched ++
    [Event.descCheckBox_stateChanged true, Event.GetTrackInfo_Succeed 1 12345 3 [0, 1]]

/-- The runnable is connected to the lambda of the loop. -/
def Runnable.isLaterPage : Runnable → Bool
  | Runnable.GetTrackInfoRunnable _ _ _ SucceedSlot.laterPage => true
  | _ => false

/-- The event is a click on the parse button. -/
def Event.isParseClick : Event → Bool
  | Event.parseBtn_clicked _ => true
  | _ => false

/-- Apart from the runnable at position `ex`, if any, the runnables that have not
reported yet are runnables for pages from 2 on: their results submit nothing. -/
def pendingApartFrom (ex : Option Nat) (w : MainWindow) : Prop :=
  ∀ j r, startedJob w j = some r → ex = some j ∨ r.isLaterPage = true

/-- No album-info runnable and no page-1 runnable is in flight. -/
def quiet (w : MainWindow) : Bool :=
  w.pool_.all (fun job => decide (job.status ≠ JobStatus.started) || job.runnable.isLaterPage)

/-- The event starts no fetch and is not a signal of the runnable at position `k`. -/
def calm (k : Nat) (e : Event) : Bool :=
  !e.isParseClick && decide (jobOf e ≠ some k)

theorem body_audioList (w : MainWindow) (ai : TrackPtr) :
    (AddAudioInfoItem.body w ai).audioList_ = w.audioList_ ++ [ai] := rfl

theorem body_albumType (w : MainWindow) (ai : TrackPtr) :
    (AddAudioInfoItem.body w ai).albumType = w.albumType := rfl

theorem body_pool (w : MainWindow) (ai : TrackPtr) :
    (AddAudioInfoItem.body w ai).pool_ = w.pool_ := rfl

theorem body_isAsc (w : MainWindow) (ai : TrackPtr) :
    (AddAudioInfoItem.body w ai).isAsc_ = w.isAsc_ := rfl

theorem foldl_body_audioList (list : List TrackPtr) (w : MainWindow) :
    (list.foldl AddAudioInfoItem.body w).audioList_ = w.audioList_ ++ list := by
  induction list generalizing w with
  | nil => simp
  | cons ai rest ih => simp [List.foldl_cons, ih, body_audioList]

theorem foldl_body_albumType (list : List TrackPtr) (w : MainWindow) :
    (list.foldl AddAudioInfoItem.body w).albumType = w.albumType := by
  induction list generalizing w with
  | nil => rfl
  | cons ai rest ih => simp [List.foldl_cons, ih, body_albumType]

theorem foldl_body_pool (list : List TrackPtr) (w : MainWindow) :
    (list.foldl AddAudioInfoItem.body w).pool_ = w.pool_ := by
  induction list generalizing w with
  | nil => rfl
  | cons ai rest ih => simp [List.foldl_cons, ih, body_pool]

theorem foldl_body_isAsc (list : List TrackPtr) (w : MainWindow) :
    (list.foldl AddAudioInfoItem.body w).isAsc_ = w.isAsc_ := by
  induction list generalizing w with
  | nil => rfl
  | cons ai rest ih => simp [List.foldl_cons, ih, body_isAsc]

theorem AddAudioInfoItem_audioList (w : MainWindow) (list : List TrackPtr) :
    (AddAudioInfoItem w list).audioList_ = w.audioList_ ++ list := by
  simp [AddAudioInfoItem, foldl_body_audioList]

theorem AddAudioInfoItem_albumType (w : MainWindow) (list : List TrackPtr) :
    (AddAudioInfoItem w list).albumType = w.albumType := by
  simp [AddAudioInfoItem, foldl_body_albumType]

theorem AddAudioInfoItem_pool (w : MainWindow) (list : List TrackPtr) :
    (AddAudioInfoItem w list).pool_ = w.pool_ := by
  simp [AddAudioInfoItem, foldl_body_pool]

theorem AddAudioInfoItem_isAsc (w : MainWindow) (list : List TrackPtr) :
    (AddAudioInfoItem w list).isAsc_ = w.isAsc_ := by
  simp [AddAudioInfoItem, foldl_body_isAsc]

theorem ClearAllURL_idem (t : TrackInfo) : t.ClearAllURL.ClearAllURL = t.ClearAllURL := rfl

theorem ClearAllURL_trackID (t : TrackInfo) : t.ClearAllURL.trackID = t.trackID := rfl

theorem ClearAllURL_isEmptyURL (t : TrackInfo) : t.ClearAllURL.isEmptyURL = true := rfl

/-- The heap after the loop, when the album type is 1: nothing was written. -/
theorem foldl_body_heap_type1 (list : List TrackPtr) (w : MainWindow) (h : w.albumType = 1) :
    (list.foldl AddAudioInfoItem.body w).heap = w.heap := by
  induction list generalizing w with
  | nil => rfl
  | cons ai rest ih =>
      rw [List.foldl_cons, ih _ (by rw [body_albumType]; exact h)]
      simp [AddAudioInfoItem.body, h]

/-- The heap after the loop, when the album type is not 1: the objects of the
page have their URLs cleared, every other object is as before. -/
theorem foldl_body_heap_other (list : List TrackPtr) (w : MainWindow) (h : w.albumType ≠ 1)
    (p : TrackPtr) :
    (list.foldl AddAudioInfoItem.body w).heap p =
      if p ∈ list then (w.heap p).ClearAllURL else w.heap p := by
  induction list generalizing w with
  | nil => simp
  | cons ai rest ih =>
      rw [List.foldl_cons, ih _ (by rw [body_albumType]; exact h)]
      by_cases hp : p = ai
      · subst hp
        simp [AddAudioInfoItem.body, h, heapSet, ClearAllURL_idem]
      · by_cases hr : p ∈ rest <;> simp [AddAudioInfoItem.body, h, heapSet, hp, hr]

theorem AddAudioInfoItem_heap_type1 (w : MainWindow) (list : List TrackPtr)
    (h : w.albumType = 1) : (AddAudioInfoItem w list).heap = w.heap :=
  foldl_body_heap_type1 list { w with timerActive := true } h

theorem AddAudioInfoItem_heap_other (w : MainWindow) (list : List TrackPtr)
    (h : w.albumType ≠ 1) (p : TrackPtr) :
    (AddAudioInfoItem w list).heap p =
      if p ∈ list then (w.heap p).ClearAllURL else w.heap p :=
  foldl_body_heap_other list { w with timerActive := true } h p

/-- The loop writes only the URLs of an object: up to them the object is as before. -/
theorem foldl_body_heap_clear (list : List TrackPtr) (w : MainWindow) (p : TrackPtr) :
    ((list.foldl AddAudioInfoItem.body w).heap p).ClearAllURL = (w.heap p).ClearAllURL := by
  by_cases h : w.albumType = 1
  · rw [foldl_body_heap_type1 list w h]
  · rw [foldl_body_heap_other list w h]
    split <;> simp [ClearAllURL_idem]

theorem AddAudioInfoItem_heap_clear (w : MainWindow) (list : List TrackPtr) (p : TrackPtr) :
    ((AddAudioInfoItem w list).heap p).ClearAllURL = (w.heap p).ClearAllURL := by
  simp [AddAudioInfoItem, foldl_body_heap_clear]

/-- No call of `AddAudioInfoItem` changes the id of a track object. -/
theorem AddAudioInfoItem_trackID (w : MainWindow) (list : List TrackPtr) (p : TrackPtr) :
    ((AddAudioInfoItem w list).heap p).trackID = (w.heap p).trackID := by
  have h := congrArg TrackInfo.trackID (AddAudioInfoItem_heap_clear w list p)
  simpa [ClearAllURL_trackID] using h

theorem trackIDs_AddAudioInfoItem (w : MainWindow) (page : List TrackPtr) :
    trackIDs (AddAudioInfoItem w page) =
      trackIDs w ++ page.map (fun p => (w.heap p).trackID) := by
  simp [trackIDs, AddAudioInfoItem_audioList, AddAudioInfoItem_trackID]

theorem foldl_AddAudioInfoItem_audioList (pages : List (List TrackPtr)) (w : MainWindow) :
    (pages.foldl AddAudioInfoItem w).audioList_ = w.audioList_ ++ pages.flatten := by
  induction pages generalizing w with
  | nil => simp
  | cons page rest ih => simp [List.foldl_cons, ih, AddAudioInfoItem_audioList]

/-! ## The claims about `AddAudioInfoItem` -/

/-- C8: for every call `AddAudioInfoItem(page)` on a visible list `L` the visible
list afterwards is `L ++ page`: the first `L.length` entries are `L`, the rest is
`page` in its own order, the objects keep every field but the URLs, and pages
delivered one after the other appear in the order of their arrival. -/
theorem C8_AddAudioInfoItem_appends_in_order (w : MainWindow) (page : List TrackPtr) :
    (AddAudioInfoItem w page).audioList_ = w.audioList_ ++ page
    ∧ (AddAudioInfoItem w page).audioList_.take w.audioList_.length = w.audioList_
    ∧ (AddAudioInfoItem w page).audioList_.drop w.audioList_.length = page
    ∧ (∀ p, ((AddAudioInfoItem w page).heap p).ClearAllURL = (w.heap p).ClearAllURL)
    ∧ (∀ pages : List (List TrackPtr),
        (pages.foldl AddAudioInfoItem w).audioList_ = w.audioList_ ++ pages.flatten) := by
  refine ⟨AddAudioInfoItem_audioList w page, ?_, ?_, AddAudioInfoItem_heap_clear w page,
    fun pages => foldl_AddAudioInfoItem_audioList pages w⟩
  · rw [AddAudioInfoItem_audioList, List.take_left]
  · rw [AddAudioInfoItem_audioList, List.drop_left]

/-- C9: a track that `AddAudioInfoItem` adds is in the visible list afterwards;
while the album type is 1 its object is unchanged, and while the album type is not
1 its object has the URLs cleared, so that `isEmptyURL` holds.  The album type is
the type of the album that `OnGetAlbumInfoFinished` received last. -/
theorem C9_urls_cleared_unless_type_1 (w : MainWindow) (page : List TrackPtr) (p : TrackPtr)
    (hp : p ∈ page) :
    p ∈ (AddAudioInfoItem w page).audioList_
    ∧ (if w.albumType = 1 then (AddAudioInfoItem w page).heap p = w.heap p
       else (AddAudioInfoItem w page).heap p = (w.heap p).ClearAllURL
            ∧ ((AddAudioInfoItem w page).heap p).isEmptyURL = true)
    ∧ (∀ (w0 : MainWindow) (albumID : Int) (ai : AlbumInfo),
        (OnGetAlbumInfoFinished w0 albumID ai).albumType = ai.type) := by
  refine ⟨by simp [AddAudioInfoItem_audioList, hp], ?_, fun _ _ _ => rfl⟩
  by_cases h : w.albumType = 1
  · simp only [h, if_true]
    rw [AddAudioInfoItem_heap_type1 w page h]
  · simp only [h, if_false]
    have hh : (AddAudioInfoItem w page).heap p = (w.heap p).ClearAllURL := by
      rw [AddAudioInfoItem_heap_other w page h]
      simp [hp]
    exact ⟨hh, by rw [hh]; exact ClearAllURL_isEmptyURL _⟩

/-- Witness for C9: the track at address 0, added while the album type is 2. -/
theorem C9_urls_cleared_unless_type_1_witness :
    (0 : TrackPtr) ∈ [0, 1]
    ∧ ((AddAudioInfoItem (MainWindow.initial exampleHeap true 2 "mp3" false id) [0, 1]).heap 0).isEmptyURL
        = true
    ∧ (exampleHeap 0).isEmptyURL = false :=
  ⟨by decide,
   (C9_urls_cleared_unless_type_1 (MainWindow.initial exampleHeap true 2 "mp3" false id) [0, 1] 0
      (by decide)).2.1.2,
   by decide⟩

/-- C4, as stated, fails: after a fetch start the page with the tracks 100 and 101
is delivered twice (the objects at 0, 1 and at 2, 3); the visible list then holds
both tracks twice. -/
theorem C4_counterexample :
    trackIDs (AddAudioInfoItem (AddAudioInfoItem (on_parseBtn_clicked exampleWindow 12345) [0, 1])
      [2, 3]) = [100, 101, 100, 101]
    ∧ ¬ (trackIDs (AddAudioInfoItem (AddAudioInfoItem (on_parseBtn_clicked exampleWindow 12345)
      [0, 1]) [2, 3])).Nodup := by
  have h : trackIDs (AddAudioInfoItem (AddAudioInfoItem (on_parseBtn_clicked exampleWindow 12345)
      [0, 1]) [2, 3]) = [100, 101, 100, 101] := by decide
  exact ⟨h, by rw [h]; decide⟩

/-- C4, amended: `AddAudioInfoItem` appends the ids of the page to the ids of the
visible list without looking at what the list holds; the ids are pairwise distinct
afterwards exactly when they were distinct before, the ids of the page are
distinct and no id of the page was in the list. -/
theorem C4_distinct_iff_page_fresh (w : MainWindow) (page : List TrackPtr) :
    trackIDs (AddAudioInfoItem w page) = trackIDs w ++ page.map (fun p => (w.heap p).trackID)
    ∧ ((trackIDs (AddAudioInfoItem w page)).Nodup ↔
        (trackIDs w).Nodup ∧ (page.map (fun p => (w.heap p).trackID)).Nodup
          ∧ (trackIDs w).Disjoint (page.map (fun p => (w.heap p).trackID))) := by
  refine ⟨trackIDs_AddAudioInfoItem w page, ?_⟩
  rw [trackIDs_AddAudioInfoItem, List.nodup_append]

/-! ## The start of a download run -/

theorem GetIntWidth.loop_spec (n : Nat) (fuel w : Nat) (h : n ≤ 10 ^ (w + fuel)) :
    w ≤ GetIntWidth.loop n fuel w ∧ n ≤ 10 ^ GetIntWidth.loop n fuel w
    ∧ ∀ v, w ≤ v → n ≤ 10 ^ v → GetIntWidth.loop n fuel w ≤ v := by
  induction fuel generalizing w with
  | zero => exact ⟨le_refl _, by simpa [GetIntWidth.loop] using h, fun v hv _ => hv⟩
  | succ fuel ih =>
      unfold GetIntWidth.loop
      by_cases hw : n ≤ 10 ^ w
      · rw [if_pos hw]
        exact ⟨le_refl _, hw, fun v hv _ => hv⟩
      · rw [if_neg hw]
        have h1 : n ≤ 10 ^ (w + 1 + fuel) := by
          have : w + 1 + fuel = w + (fuel + 1) := by omega
          rw [this]; exact h
        obtain ⟨a, b, c⟩ := ih (w + 1) h1
        refine ⟨by omega, b, fun v hv hn => c v ?_ hn⟩
        rcases Nat.eq_or_lt_of_le hv with e | e
        · subst e; exact absurd hn hw
        · exact e

theorem GetIntWidth_spec (n : Nat) :
    1 ≤ GetIntWidth n ∧ n ≤ 10 ^ GetIntWidth n
    ∧ ∀ v, 1 ≤ v → n ≤ 10 ^ v → GetIntWidth n ≤ v := by
  apply GetIntWidth.loop_spec
  exact le_of_lt (lt_of_lt_of_le (Nat.lt_pow_self (by norm_num) n)
    (Nat.pow_le_pow_right (by norm_num) (by omega)))

theorem GetIntWidth_eq_clog (n : Nat) : GetIntWidth n = max 1 (Nat.clog 10 n) := by
  obtain ⟨a, b, c⟩ := GetIntWidth_spec n
  apply le_antisymm
  · apply c _ (le_max_left _ _)
    exact le_trans (Nat.le_pow_clog (by norm_num) n)
      (Nat.pow_le_pow_right (by norm_num) (le_max_right _ _))
  · exact max_le a ((Nat.le_pow_iff_clog_le (by norm_num)).1 b)

/-- The loop over the selected rows: when every row is inside the list it adds one
task per row, in order, numbered `row + 1`, for the track of that row. -/
theorem startDownload_loop (w : MainWindow) (rows : List Nat)
    (h : ∀ r ∈ rows, r < w.audioList_.length) (d0 : DownloadQueueDialog) :
    ∃ tasks : List (Nat × TrackPtr),
      rows.foldlM
          (fun d row =>
            (QList.at w.audioList_ row).map (fun ai => d.AddDownloadTask (row + 1) ai)) d0
        = some { d0 with tasks := d0.tasks ++ tasks }
      ∧ tasks.map (fun t => (t.1, some t.2)) = rows.map (fun r => (r + 1, w.audioList_[r]?)) := by
  induction rows generalizing d0 with
  | nil => exact ⟨[], by simp, by simp⟩
  | cons r rest ih =>
      have hr : r < w.audioList_.length := h r (by simp)
      obtain ⟨tasks, h1, h2⟩ :=
        ih (fun x hx => h x (by simp [hx])) (d0.AddDownloadTask (r + 1) w.audioList_[r])
      refine ⟨(r + 1, w.audioList_[r]) :: tasks, ?_, ?_⟩
      · rw [List.foldlM_cons]
        simp only [QList.at, List.getElem?_eq_getElem hr, Option.map_some', Option.some_bind,
          Option.bind_eq_bind]
        simp only [QList.at] at h1
        rw [h1]
        simp [DownloadQueueDialog.AddDownloadTask]
      · simp [h2, List.getElem?_eq_getElem hr]

/-- The dialog that `on_startDownloadBtn_clicked` sets up when every selected row
is a row of the visible list. -/
theorem startDownload_result (w : MainWindow) (cookie : String) (maxTaskCount : Int)
    (downloadDir : String) (rows : List Nat) (h : ∀ r ∈ rows, r < w.audioList_.length) :
    ∃ d, on_startDownloadBtn_clicked w cookie maxTaskCount downloadDir rows = some d
      ∧ d.numWidth = GetIntWidth (w.audioList_.length + 1)
      ∧ d.tasks.map (fun t => (t.1, some t.2)) = rows.map (fun r => (r + 1, w.audioList_[r]?)) := by
  obtain ⟨tasks, h1, h2⟩ := startDownload_loop w rows h
    { cookie := cookie
      maxTaskCount := maxTaskCount
      downloadDir := downloadDir ++ "/" ++ w.albumName_
      extName := w.extName
      isAddNum := w.isAddNum
      numWidth := GetIntWidth (w.audioList_.length + 1)
      tasks := [] }
  exact ⟨_, h1, rfl, by simpa using h2⟩

/-- C2, as stated, fails: with ten tracks in the visible list and one selected
track (N = 1) the width handed to `InitValue` is 2, the width of the list size,
and not `ceil(log10(N+1)) = 1`. -/
theorem C2_counterexample :
    (on_startDownloadBtn_clicked tenTrackWindow "" 1 "" [0]).map (fun d => d.numWidth) = some 2
    ∧ GetIntWidth ([0].length + 1) = 1 := by
  decide

/-- C2, amended: the zero-pad width handed to `InitValue` is computed from the
number `M` of tracks in the visible list `audioList_`, whatever the selection is:
it is `ceil(log10(M+1))` with minimum 1, that is the least `w ≥ 1` with
`M + 1 ≤ 10 ^ w`; `M` in 1, 9, 10, 11, 100 gives the widths 1, 1, 2, 2, 3. -/
theorem C2_width_from_visible_list (w : MainWindow) (cookie : String) (maxTaskCount : Int)
    (downloadDir : String) (rows : List Nat) (h : ∀ r ∈ rows, r < w.audioList_.length) :
    ∃ d, on_startDownloadBtn_clicked w cookie maxTaskCount downloadDir rows = some d
      ∧ d.numWidth = GetIntWidth (w.audioList_.length + 1)
      ∧ d.numWidth = max 1 (Nat.clog 10 (w.audioList_.length + 1))
      ∧ 1 ≤ d.numWidth
      ∧ w.audioList_.length + 1 ≤ 10 ^ d.numWidth
      ∧ (∀ v, 1 ≤ v → w.audioList_.length + 1 ≤ 10 ^ v → d.numWidth ≤ v)
      ∧ [1, 9, 10, 11, 100].map (fun M => GetIntWidth (M + 1)) = [1, 1, 2, 2, 3] := by
  obtain ⟨d, h1, h2, _⟩ := startDownload_result w cookie maxTaskCount downloadDir rows h
  obtain ⟨a, b, c⟩ := GetIntWidth_spec (w.audioList_.length + 1)
  refine ⟨d, h1, h2, ?_, ?_, ?_, ?_, by decide⟩
  · rw [h2, GetIntWidth_eq_clog]
  · rw [h2]; exact a
  · rw [h2]; exact b
  · rw [h2]; exact c

/-- Witness for C2: ten tracks in the visible list, the first row selected. -/
theorem C2_width_from_visible_list_witness :
    (∀ r ∈ [0], r < tenTrackWindow.audioList_.length)
    ∧ ∃ d, on_startDownloadBtn_clicked tenTrackWindow "" 1 "" [0] = some d
      ∧ d.numWidth = GetIntWidth (tenTrackWindow.audioList_.length + 1)
      ∧ d.numWidth = max 1 (Nat.clog 10 (tenTrackWindow.audioList_.length + 1))
      ∧ 1 ≤ d.numWidth
      ∧ tenTrackWindow.audioList_.length + 1 ≤ 10 ^ d.numWidth
      ∧ (∀ v, 1 ≤ v → tenTrackWindow.audioList_.length + 1 ≤ 10 ^ v → d.numWidth ≤ v)
      ∧ [1, 9, 10, 11, 100].map (fun M => GetIntWidth (M + 1)) = [1, 1, 2, 2, 3] :=
  ⟨by decide, C2_width_from_visible_list tenTrackWindow "" 1 "" [0] (by decide)⟩

/-- C3, as stated, fails: with the rows 2 and 5 of a ten-track list selected the
two tasks get the numbers 3 and 6, the positions in the full list, not 1 and 2. -/
theorem C3_counterexample :
    (on_startDownloadBtn_clicked tenTrackWindow "" 1 "" [2, 5]).map
        (fun d => d.tasks.map Prod.fst) = some [3, 6]
    ∧ (on_startDownloadBtn_clicked tenTrackWindow "" 1 "" [2, 5]).map
        (fun d => d.tasks.map Prod.fst) ≠ some [1, 2] := by
  decide

/-- C3, amended: the number given to each download task is the 1-based position
of the track in the full visible list (`row + 1`), for the track `audioList_[row]`:
the numbers are strictly increasing exactly when the rows are, and they are 1..k
exactly when the selection is the first k rows. -/
theorem C3_number_is_row_plus_one (w : MainWindow) (cookie : String) (maxTaskCount : Int)
    (downloadDir : String) (rows : List Nat) (h : ∀ r ∈ rows, r < w.audioList_.length) :
    ∃ d, on_startDownloadBtn_clicked w cookie maxTaskCount downloadDir rows = some d
      ∧ d.tasks.map Prod.fst = rows.map (fun r => r + 1)
      ∧ d.tasks.map (fun t => some t.2) = rows.map (fun r => w.audioList_[r]?)
      ∧ ((d.tasks.map Prod.fst).Pairwise (fun a b => a < b) ↔ rows.Pairwise (fun a b => a < b))
      ∧ (d.tasks.map Prod.fst = (List.range rows.length).map (fun i => i + 1)
          ↔ rows = List.range rows.length) := by
  obtain ⟨d, h1, _, h3⟩ := startDownload_result w cookie maxTaskCount downloadDir rows h
  have hfst : d.tasks.map Prod.fst = rows.map (fun r => r + 1) := by
    have := congrArg (List.map Prod.fst) h3
    simpa [List.map_map, Function.comp] using this
  have hsnd : d.tasks.map (fun t => some t.2) = rows.map (fun r => w.audioList_[r]?) := by
    have := congrArg (List.map Prod.snd) h3
    simpa [List.map_map, Function.comp] using this
  refine ⟨d, h1, hfst, hsnd, ?_, ?_⟩
  · rw [hfst, List.pairwise_map]
    simp
  · rw [hfst]
    constructor
    · intro e
      exact List.map_injective_iff.2 (fun a b hab => by simpa using hab) e
    · intro e
      rw [← e]

/-- Witness for C3: the rows 2 and 5 of a ten-track list. -/
theorem C3_number_is_row_plus_one_witness :
    (∀ r ∈ [2, 5], r < tenTrackWindow.audioList_.length)
    ∧ ∃ d, on_startDownloadBtn_clicked tenTrackWindow "" 1 "" [2, 5] = some d
      ∧ d.tasks.map Prod.fst = [2, 5].map (fun r => r + 1)
      ∧ d.tasks.map (fun t => some t.2) = [2, 5].map (fun r => tenTrackWindow.audioList_[r]?)
      ∧ ((d.tasks.map Prod.fst).Pairwise (fun a b => a < b)
          ↔ [2, 5].Pairwise (fun a b => a < b))
      ∧ (d.tasks.map Prod.fst = (List.range [2, 5].length).map (fun i => i + 1)
          ↔ [2, 5] = List.range [2, 5].length) :=
  ⟨by decide, C3_number_is_row_plus_one tenTrackWindow "" 1 "" [2, 5] (by decide)⟩

/-! ## The table shows the visible list -/

theorem tableShowsList_frame (w w1 : MainWindow) (hh : w1.heap = w.heap)
    (ha : w1.audioList_ = w.audioList_) (ht : w1.tableWidget = w.tableWidget)
    (h : tableShowsList w) : tableShowsList w1 := by
  unfold tableShowsList at *
  rw [hh, ha, ht]; exact h

theorem body_trackID (w : MainWindow) (ai p : TrackPtr) :
    ((AddAudioInfoItem.body w ai).heap p).trackID = (w.heap p).trackID := by
  simp only [AddAudioInfoItem.body]
  by_cases h : w.albumType = 1
  · simp [h]
  · by_cases hp : p = ai
    · subst hp; simp [h, heapSet, ClearAllURL_trackID]
    · simp [h, heapSet, hp]

theorem tableShowsList_body (w : MainWindow) (ai : TrackPtr) (h : tableShowsList w) :
    tableShowsList (AddAudioInfoItem.body w ai) := by
  unfold tableShowsList at *
  simp only [body_trackID]
  simp [AddAudioInfoItem.body, h]

theorem tableShowsList_foldl_body (list : List TrackPtr) (w : MainWindow)
    (h : tableShowsList w) : tableShowsList (list.foldl AddAudioInfoItem.body w) := by
  induction list generalizing w with
  | nil => exact h
  | cons ai rest ih => exact ih _ (tableShowsList_body w ai h)

theorem tableShowsList_AddAudioInfoItem (w : MainWindow) (list : List TrackPtr)
    (h : tableShowsList w) : tableShowsList (AddAudioInfoItem w list) :=
  tableShowsList_foldl_body list _ (tableShowsList_frame w _ rfl rfl rfl h)

theorem tableShowsList_on_parseBtn_clicked (w : MainWindow) (albumID : Int)
    (h : tableShowsList w) : tableShowsList (on_parseBtn_clicked w albumID) := by
  unfold on_parseBtn_clicked
  split
  · exact h
  · simp [tableShowsList, poolStart]

theorem tableShowsList_pages (albumID : Int) (pages : List Int) (w : MainWindow)
    (h : tableShowsList w) :
    tableShowsList (pages.foldl (firstPageSucceed.body albumID) w) := by
  induction pages generalizing w with
  | nil => exact h
  | cons i rest ih => exact ih _ (tableShowsList_frame w _ rfl rfl rfl h)

theorem tableShowsList_firstPageSucceed (w : MainWindow) (albumID maxPageID : Int)
    (list : List TrackPtr) (h : tableShowsList w) :
    tableShowsList (firstPageSucceed w albumID maxPageID list) :=
  tableShowsList_pages albumID _ _ (tableShowsList_AddAudioInfoItem w list h)

theorem tableShowsList_step (w : MainWindow) (e : Event) (h : tableShowsList w) :
    tableShowsList (step w e) := by
  have hs : ∀ job st, tableShowsList (setStatus w job st) :=
    fun job st => tableShowsList_frame w _ rfl rfl rfl h
  cases e with
  | descCheckBox_stateChanged checked => exact tableShowsList_frame w _ rfl rfl rfl h
  | parseBtn_clicked albumID =>
      simp only [step]
      split
      · exact tableShowsList_on_parseBtn_clicked w albumID h
      · exact h
  | selectionChanged size => exact tableShowsList_frame w _ rfl rfl rfl h
  | addNumCheckBox_clicked checked => exact tableShowsList_frame w _ rfl rfl rfl h
  | mp3RadioBtn_clicked => exact tableShowsList_frame w _ rfl rfl rfl h
  | m4aRadioBtn_clicked => exact tableShowsList_frame w _ rfl rfl rfl h
  | timeout =>
      simp only [step]
      split
      · exact tableShowsList_frame w _ rfl rfl rfl h
      · exact h
  | GetAlbumInfo_Succeed job albumID ai =>
      simp only [step]
      split
      · exact tableShowsList_frame _ _ rfl rfl rfl (hs job JobStatus.succeeded)
      · exact h
  | GetAlbumInfo_Failed job err =>
      simp only [step]
      split
      · exact tableShowsList_frame _ _ rfl rfl rfl (hs job JobStatus.failed)
      · exact h
  | GetTrackInfo_Succeed job albumID maxPageID list =>
      simp only [step]
      split
      · exact tableShowsList_firstPageSucceed _ _ _ _ (hs job JobStatus.succeeded)
      · exact tableShowsList_AddAudioInfoItem _ _ (hs job JobStatus.succeeded)
      · exact h
  | GetTrackInfo_Failed job albumID err =>
      simp only [step]
      split
      · exact tableShowsList_frame _ _ rfl rfl rfl (hs job JobStatus.failed)
      · exact h

theorem tableShowsList_of_reachable (w : MainWindow) (h : Reachable w) : tableShowsList w := by
  induction h with
  | initial heap isAsc albumType extName isAddNum fileNameReg => simp [tableShowsList, MainWindow.initial]
  | event w e _ ih => exact tableShowsList_step w e ih
  | parseBtn w albumID _ ih => exact tableShowsList_on_parseBtn_clicked w albumID ih
  | addItems w list _ ih => exact tableShowsList_AddAudioInfoItem w list ih
  | albumInfoFailed w err _ ih => exact tableShowsList_frame w _ rfl rfl rfl ih
  | audioInfoFailed w albumID err _ ih => exact tableShowsList_frame w _ rfl rfl rfl ih

/-- C10: in every reachable state the table has as many rows as `audioList_` has
entries and row `r` shows the id of the track `audioList_[r]`; hence for rows of
the table the lookups `audioList_.at(row)` of `on_startDownloadBtn_clicked` and of
the context menu are inside the list and give the track shown in the row. -/
theorem C10_rows_match_audioList (w : MainWindow) (hw : Reachable w) :
    w.tableWidget.length = w.audioList_.length
    ∧ (∀ r, r < w.tableWidget.length →
        ∃ ai row, QList.at w.audioList_ r = some ai ∧ w.tableWidget[r]? = some row
          ∧ row.id = QString.number (w.heap ai).trackID)
    ∧ (∀ cookie maxTaskCount downloadDir rows, (∀ r ∈ rows, r < w.tableWidget.length) →
        ∃ d, on_startDownloadBtn_clicked w cookie maxTaskCount downloadDir rows = some d
          ∧ d.tasks.map (fun t => some t.2) = rows.map (fun r => QList.at w.audioList_ r))
    ∧ (∀ r, r < w.tableWidget.length →
        ∃ ai, QList.at w.audioList_ r = some ai
          ∧ getUrlAction_triggered w (some r) =
              some (if (w.heap ai).isEmptyURL then some (w.heap ai).trackID else none)) := by
  have hinv := tableShowsList_of_reachable w hw
  have hlen : w.tableWidget.length = w.audioList_.length := by
    have := congrArg List.length hinv
    simpa using this
  refine ⟨hlen, ?_, ?_, ?_⟩
  · intro r hr
    have hr2 : r < w.audioList_.length := hlen ▸ hr
    refine ⟨w.audioList_[r], w.tableWidget[r], ?_, ?_, ?_⟩
    · simp [QList.at, List.getElem?_eq_getElem hr2]
    · simp [List.getElem?_eq_getElem hr]
    · have h1 := congrArg (fun l => l[r]?) hinv
      simp only [List.getElem?_map, List.getElem?_eq_getElem hr, List.getElem?_eq_getElem hr2,
        Option.map_some'] at h1
      exact Option.some.inj h1
  · intro cookie maxTaskCount downloadDir rows hrows
    obtain ⟨d, h1, _, h3⟩ :=
      startDownload_result w cookie maxTaskCount downloadDir rows (fun r hr => hlen ▸ hrows r hr)
    refine ⟨d, h1, ?_⟩
    have := congrArg (List.map Prod.snd) h3
    simpa [List.map_map, Function.comp, QList.at] using this
  · intro r hr
    have hr2 : r < w.audioList_.length := hlen ▸ hr
    refine ⟨w.audioList_[r], by simp [QList.at, List.getElem?_eq_getElem hr2], ?_⟩
    simp only [getUrlAction_triggered, QList.at, List.getElem?_eq_getElem hr2]
    split <;> rfl

/-- Witness for C10: the window with ten tracks in the visible list. -/
theorem C10_rows_match_audioList_witness :
    Reachable tenTrackWindow
    ∧ tenTrackWindow.tableWidget.length = 10
    ∧ tenTrackWindow.tableWidget.length = tenTrackWindow.audioList_.length :=
  ⟨Reachable.addItems _ _ (Reachable.parseBtn _ _ (Reachable.initial exampleHeap true 1 "mp3" false id)),
   by decide,
   (C10_rows_match_audioList tenTrackWindow
      (Reachable.addItems _ _
        (Reachable.parseBtn _ _ (Reachable.initial exampleHeap true 1 "mp3" false id)))).1⟩

/-! ## The submission log -/

theorem setStatus_isAsc (w : MainWindow) (job : Nat) (st : JobStatus) :
    (setStatus w job st).isAsc_ = w.isAsc_ := rfl

theorem setStatus_audioList (w : MainWindow) (job : Nat) (st : JobStatus) :
    (setStatus w job st).audioList_ = w.audioList_ := rfl

theorem setStatus_getElem (w : MainWindow) (job : Nat) (st : JobStatus) (k : Nat) :
    (setStatus w job st).pool_[k]? =
      (w.pool_[k]?).map (fun j => if job = k then { j with status := st } else j) := by
  simp only [setStatus, List.getElem?_modify]
  rfl

theorem setStatus_length (w : MainWindow) (job : Nat) (st : JobStatus) :
    (setStatus w job st).pool_.length = w.pool_.length := by
  simp [setStatus]

theorem setStatus_runnables (w : MainWindow) (job : Nat) (st : JobStatus) :
    runnables (setStatus w job st) = runnables w := by
  apply List.ext_getElem?
  intro k
  simp only [runnables, List.getElem?_map, setStatus_getElem, Option.map_map]
  cases w.pool_[k]? with
  | none => rfl
  | some j => by_cases h : job = k <;> simp [h]

theorem foldl_pages_pool (albumID : Int) (pages : List Int) (w : MainWindow) :
    (pages.foldl (firstPageSucceed.body albumID) w).pool_ =
      w.pool_ ++ pages.map (fun i =>
        { runnable := Runnable.GetTrackInfoRunnable albumID i w.isAsc_ SucceedSlot.laterPage
          status := JobStatus.started }) := by
  induction pages generalizing w with
  | nil => simp
  | cons i rest ih =>
      rw [List.foldl_cons, ih]
      simp [firstPageSucceed.body, poolStart]

theorem firstPageSucceed_pool (w : MainWindow) (albumID maxPageID : Int) (list : List TrackPtr) :
    (firstPageSucceed w albumID maxPageID list).pool_ =
      w.pool_ ++ (loopPages maxPageID).map (fun i =>
        { runnable := Runnable.GetTrackInfoRunnable albumID i w.isAsc_ SucceedSlot.laterPage
          status := JobStatus.started }) := by
  simp only [firstPageSucceed]
  rw [foldl_pages_pool, AddAudioInfoItem_pool, AddAudioInfoItem_isAsc]

/-- What one turn of the event loop does to the submission log. -/
theorem step_cases (w : MainWindow) (e : Event) :
    (step w e).pool_ = w.pool_
    ∨ (∃ j r st, jobOf e = some j ∧ startedJob w j = some r ∧ st ≠ JobStatus.started
        ∧ (step w e).pool_ = (setStatus w j st).pool_)
    ∨ (∃ albumID, e = Event.parseBtn_clicked albumID
        ∧ (step w e).pool_ = w.pool_ ++
            [{ runnable := Runnable.GetAlbumInfoRunnable albumID, status := JobStatus.started }])
    ∨ (∃ j albumID ai a0, e = Event.GetAlbumInfo_Succeed j albumID ai
        ∧ startedJob w j = some (Runnable.GetAlbumInfoRunnable a0)
        ∧ (step w e).pool_ = (setStatus w j JobStatus.succeeded).pool_ ++
            [{ runnable := Runnable.GetTrackInfoRunnable albumID 1 w.isAsc_ SucceedSlot.firstPage
               status := JobStatus.started }])
    ∨ (∃ j albumID maxPageID list a1 p1 f1, e = Event.GetTrackInfo_Succeed j albumID maxPageID list
        ∧ startedJob w j = some (Runnable.GetTrackInfoRunnable a1 p1 f1 SucceedSlot.firstPage)
        ∧ (step w e).pool_ = (setStatus w j JobStatus.succeeded).pool_ ++
            (loopPages maxPageID).map (fun i =>
              { runnable := Runnable.GetTrackInfoRunnable albumID i w.isAsc_ SucceedSlot.laterPage
                status := JobStatus.started })) := by
  cases e with
  | descCheckBox_stateChanged checked => exact Or.inl rfl
  | parseBtn_clicked albumID =>
      simp only [step]
      split
      · unfold on_parseBtn_clicked
        split
        · exact Or.inl rfl
        · exact Or.inr (Or.inr (Or.inl ⟨albumID, rfl, rfl⟩))
      · exact Or.inl rfl
  | selectionChanged size => exact Or.inl rfl
  | addNumCheckBox_clicked checked => exact Or.inl rfl
  | mp3RadioBtn_clicked => exact Or.inl rfl
  | m4aRadioBtn_clicked => exact Or.inl rfl
  | timeout =>
      simp only [step]
      split
      · exact Or.inl rfl
      · exact Or.inl rfl
  | GetAlbumInfo_Succeed job albumID ai =>
      simp only [step]
      split
      · rename_i a0 hj
        exact Or.inr (Or.inr (Or.inr (Or.inl ⟨job, albumID, ai, a0, rfl, hj, rfl⟩)))
      · exact Or.inl rfl
  | GetAlbumInfo_Failed job err =>
      simp only [step]
      split
      · rename_i a0 hj
        exact Or.inr (Or.inl ⟨job, _, JobStatus.failed, rfl, hj, by decide, rfl⟩)
      · exact Or.inl rfl
  | GetTrackInfo_Succeed job albumID maxPageID list =>
      simp only [step]
      split
      · rename_i a1 p1 f1 hj
        refine Or.inr (Or.inr (Or.inr (Or.inr
          ⟨job, albumID, maxPageID, list, a1, p1, f1, rfl, hj, ?_⟩)))
        rw [firstPageSucceed_pool, setStatus_isAsc]
      · rename_i a1 p1 f1 hj
        refine Or.inr (Or.inl ⟨job, _, JobStatus.succeeded, rfl, hj, by decide, ?_⟩)
        simp only [laterPageSucceed]
        rw [AddAudioInfoItem_pool]
      · exact Or.inl rfl
  | GetTrackInfo_Failed job albumID err =>
      simp only [step]
      split
      · rename_i a1 p1 f1 s1 hj
        exact Or.inr (Or.inl ⟨job, _, JobStatus.failed, rfl, hj, by decide, rfl⟩)
      · exact Or.inl rfl

theorem submitted_of_append (w : MainWindow) (e : Event) (new : List Runnable)
    (h : runnables (step w e) = runnables w ++ new) : submitted w e = new := by
  simp [submitted, h]

/-- What one turn of the event loop submits. -/
theorem submitted_cases (w : MainWindow) (e : Event) :
    runnables (step w e) = runnables w ++ submitted w e
    ∧ (submitted w e = []
      ∨ (∃ albumID, e = Event.parseBtn_clicked albumID
          ∧ submitted w e = [Runnable.GetAlbumInfoRunnable albumID])
      ∨ (∃ j albumID ai a0, e = Event.GetAlbumInfo_Succeed j albumID ai
          ∧ startedJob w j = some (Runnable.GetAlbumInfoRunnable a0)
          ∧ submitted w e = [Runnable.GetTrackInfoRunnable albumID 1 w.isAsc_ SucceedSlot.firstPage])
      ∨ (∃ j albumID maxPageID list a1 p1 f1,
          e = Event.GetTrackInfo_Succeed j albumID maxPageID list
          ∧ startedJob w j = some (Runnable.GetTrackInfoRunnable a1 p1 f1 SucceedSlot.firstPage)
          ∧ submitted w e = (loopPages maxPageID).map (fun i =>
              Runnable.GetTrackInfoRunnable albumID i w.isAsc_ SucceedSlot.laterPage))) := by
  rcases step_cases w e with h | ⟨j, r, st, _, _, _, h⟩ | ⟨albumID, he, h⟩ |
    ⟨j, albumID, ai, a0, he, hj, h⟩ | ⟨j, albumID, maxPageID, list, a1, p1, f1, he, hj, h⟩
  · have h1 : runnables (step w e) = runnables w ++ [] := by simp [runnables, h]
    have h2 := submitted_of_append w e _ h1
    exact ⟨by rw [h2]; exact h1, Or.inl h2⟩
  · have h1 : runnables (step w e) = runnables w ++ [] := by
      have : runnables (step w e) = runnables (setStatus w j st) := by simp [runnables, h]
      rw [this, setStatus_runnables]; simp
    have h2 := submitted_of_append w e _ h1
    exact ⟨by rw [h2]; exact h1, Or.inl h2⟩
  · have h1 : runnables (step w e) = runnables w ++ [Runnable.GetAlbumInfoRunnable albumID] := by
      simp [runnables, h]
    have h2 := submitted_of_append w e _ h1
    exact ⟨by rw [h2]; exact h1, Or.inr (Or.inl ⟨albumID, he, h2⟩)⟩
  · have h1 : runnables (step w e) = runnables w ++
        [Runnable.GetTrackInfoRunnable albumID 1 w.isAsc_ SucceedSlot.firstPage] := by
      have : runnables (step w e) = runnables (setStatus w j JobStatus.succeeded) ++
          [Runnable.GetTrackInfoRunnable albumID 1 w.isAsc_ SucceedSlot.firstPage] := by
        simp [runnables, h]
      rw [this, setStatus_runnables]
    have h2 := submitted_of_append w e _ h1
    exact ⟨by rw [h2]; exact h1, Or.inr (Or.inr (Or.inl ⟨j, albumID, ai, a0, he, hj, h2⟩))⟩
  · have h1 : runnables (step w e) = runnables w ++ (loopPages maxPageID).map (fun i =>
        Runnable.GetTrackInfoRunnable albumID i w.isAsc_ SucceedSlot.laterPage) := by
      have : runnables (step w e) = runnables (setStatus w j JobStatus.succeeded) ++
          (loopPages maxPageID).map (fun i =>
            Runnable.GetTrackInfoRunnable albumID i w.isAsc_ SucceedSlot.laterPage) := by
        simp [runnables, h, List.map_map, Function.comp]
      rw [this, setStatus_runnables]
    have h2 := submitted_of_append w e _ h1
    exact ⟨by rw [h2]; exact h1,
      Or.inr (Or.inr (Or.inr ⟨j, albumID, maxPageID, list, a1, p1, f1, he, hj, h2⟩))⟩

theorem mem_loopPages (maxPageID i : Int) : i ∈ loopPages maxPageID ↔ 2 ≤ i ∧ i ≤ maxPageID := by
  simp only [loopPages, List.mem_map, List.mem_range]
  constructor
  · rintro ⟨k, hk, rfl⟩
    omega
  · rintro ⟨h1, h2⟩
    exact ⟨(i - 2).toNat, by omega, by omega⟩

theorem startedJob_getElem (w : MainWindow) (j : Nat) (r : Runnable)
    (h : startedJob w j = some r) :
    w.pool_[j]? = some { runnable := r, status := JobStatus.started } := by
  unfold startedJob at h
  split at h
  · rename_i r1 h1
    rw [h1]
    simp only [Option.some.injEq] at h
    rw [h]
  · exact absurd h (by simp)

theorem setStatus_getElem_self (w : MainWindow) (j : Nat) (r : Runnable) (st : JobStatus)
    (h : startedJob w j = some r) :
    (setStatus w j st).pool_[j]? = some { runnable := r, status := st } := by
  rw [setStatus_getElem, startedJob_getElem w j r h]
  simp

theorem laterPagesFollowSuccess_setStatus (w : MainWindow) (j : Nat) (r : Runnable)
    (st : JobStatus) (hj : startedJob w j = some r) (h : laterPagesFollowSuccess w.pool_) :
    laterPagesFollowSuccess (setStatus w j st).pool_ := by
  intro k a i f s st1 hk hi
  rw [setStatus_getElem] at hk
  cases hwk : w.pool_[k]? with
  | none => rw [hwk] at hk; exact absurd hk (by simp)
  | some x =>
      rw [hwk] at hk
      have hx : x.runnable = Runnable.GetTrackInfoRunnable a i f s := by
        simp only [Option.map_some', Option.some.injEq] at hk
        by_cases e : j = k
        · rw [if_pos e] at hk
          have := congrArg PoolJob.runnable hk
          simpa using this
        · rw [if_neg e] at hk
          rw [hk]
      obtain ⟨j0, a1, f1, hlt, hj0⟩ := h k a i f s x.status (by rw [hwk, ← hx]) hi
      refine ⟨j0, a1, f1, hlt, ?_⟩
      rw [setStatus_getElem, hj0]
      have hne : j ≠ j0 := by
        intro e
        subst e
        rw [startedJob_getElem w j r hj] at hj0
        simp at hj0
      simp [hne]

theorem laterPagesFollowSuccess_append (pool new : List PoolJob)
    (h : laterPagesFollowSuccess pool)
    (hnew : ∀ a i f s st,
      ({ runnable := Runnable.GetTrackInfoRunnable a i f s, status := st } : PoolJob) ∈ new →
      2 ≤ i →
      ∃ j a1 f1, j < pool.length ∧ pool[j]? = some
        (PoolJob.mk (Runnable.GetTrackInfoRunnable a1 1 f1 SucceedSlot.firstPage)
          JobStatus.succeeded)) :
    laterPagesFollowSuccess (pool ++ new) := by
  intro k a i f s st hk hi
  by_cases hlt : k < pool.length
  · rw [List.getElem?_append_left hlt] at hk
    obtain ⟨j, a1, f1, hjk, hj⟩ := h k a i f s st hk hi
    exact ⟨j, a1, f1, hjk, by rw [List.getElem?_append_left (by omega)]; exact hj⟩
  · have hge : pool.length ≤ k := by omega
    rw [List.getElem?_append_right hge] at hk
    obtain ⟨j, a1, f1, hjl, hj⟩ := hnew a i f s st (List.getElem?_mem hk) hi
    exact ⟨j, a1, f1, by omega, by rw [List.getElem?_append_left hjl]; exact hj⟩

theorem poolInv_step (w : MainWindow) (e : Event) (h : poolInv w) : poolInv (step w e) := by
  obtain ⟨hfit, hord⟩ := h
  obtain ⟨hrun, hsub⟩ := submitted_cases w e
  constructor
  · intro r hr
    rw [hrun, List.mem_append] at hr
    rcases hr with hr | hr
    · exact hfit r hr
    · rcases hsub with h0 | ⟨albumID, _, h0⟩ | ⟨j, albumID, ai, a0, _, _, h0⟩ |
        ⟨j, albumID, maxPageID, list, a1, p1, f1, _, _, h0⟩
      · rw [h0] at hr; exact absurd hr (by simp)
      · rw [h0] at hr
        simp only [List.mem_singleton] at hr
        subst hr; trivial
      · rw [h0] at hr
        simp only [List.mem_singleton] at hr
        subst hr; rfl
      · rw [h0] at hr
        simp only [List.mem_map] at hr
        obtain ⟨i, hi, rfl⟩ := hr
        exact ((mem_loopPages maxPageID i).1 hi).1
  · rcases step_cases w e with h0 | ⟨j, r, st, _, hj, _, h0⟩ | ⟨albumID, _, h0⟩ |
      ⟨j, albumID, ai, a0, _, hj, h0⟩ | ⟨j, albumID, maxPageID, list, a1, p1, f1, _, hj, h0⟩
    · rw [h0]; exact hord
    · rw [h0]; exact laterPagesFollowSuccess_setStatus w j r st hj hord
    · rw [h0]
      apply laterPagesFollowSuccess_append _ _ hord
      intro a i f s st hmem _
      simp at hmem
    · rw [h0]
      apply laterPagesFollowSuccess_append _ _
        (laterPagesFollowSuccess_setStatus w j _ JobStatus.succeeded hj hord)
      intro a i f s st hmem hi
      simp only [List.mem_singleton, PoolJob.mk.injEq, Runnable.GetTrackInfoRunnable.injEq] at hmem
      omega
    · rw [h0]
      apply laterPagesFollowSuccess_append _ _
        (laterPagesFollowSuccess_setStatus w j _ JobStatus.succeeded hj hord)
      intro a i f s st _ _
      have hp1 : p1 = 1 := by
        have hmem : Runnable.GetTrackInfoRunnable a1 p1 f1 SucceedSlot.firstPage ∈ runnables w := by
          have := List.getElem?_mem (startedJob_getElem w j _ hj)
          exact List.mem_map.2 ⟨_, this, rfl⟩
        exact hfit _ hmem
      subst hp1
      have hjlt : j < w.pool_.length := by
        have := startedJob_getElem w j _ hj
        by_contra hc
        rw [List.getElem?_eq_none (by omega)] at this
        exact absurd this (by simp)
      exact ⟨j, a1, f1, by rw [setStatus_length]; exact hjlt,
        setStatus_getElem_self w j _ JobStatus.succeeded hj⟩

theorem poolInv_frame (w w1 : MainWindow) (hp : w1.pool_ = w.pool_) (h : poolInv w) :
    poolInv w1 := by
  unfold poolInv runnables at *
  rw [hp]; exact h

theorem poolInv_on_parseBtn_clicked (w : MainWindow) (albumID : Int) (h : poolInv w) :
    poolInv (on_parseBtn_clicked w albumID) := by
  unfold on_parseBtn_clicked
  split
  · exact h
  · obtain ⟨hfit, hord⟩ := h
    constructor
    · intro r hr
      simp only [runnables, poolStart, List.map_append, List.mem_append, List.map_cons,
        List.map_nil, List.mem_singleton] at hr
      rcases hr with hr | hr
      · exact hfit r hr
      · subst hr; trivial
    · apply laterPagesFollowSuccess_append _ _ hord
      intro a i f s st hmem _
      simp at hmem

theorem poolInv_of_reachable (w : MainWindow) (h : Reachable w) : poolInv w := by
  induction h with
  | initial heap isAsc albumType extName isAddNum fileNameReg =>
      constructor
      · intro r hr
        simp [runnables, MainWindow.initial] at hr
      · intro k a i f s st hk
        simp [MainWindow.initial] at hk
  | event w e _ ih => exact poolInv_step w e ih
  | parseBtn w albumID _ ih => exact poolInv_on_parseBtn_clicked w albumID ih
  | addItems w list _ ih => exact poolInv_frame w _ (AddAudioInfoItem_pool w list) ih
  | albumInfoFailed w err _ ih => exact poolInv_frame w _ rfl ih
  | audioInfoFailed w albumID err _ ih => exact poolInv_frame w _ rfl ih

theorem reachable_run (evs : List Event) (w : MainWindow) (h : Reachable w) :
    Reachable (run w evs) := by
  induction evs generalizing w with
  | nil => exact h
  | cons e rest ih => exact ih _ (Reachable.event w e h)

theorem reachable_example (evs : List Event) : Reachable (run exampleWindow evs) :=
  reachable_run evs _ (Reachable.initial exampleHeap true 1 "mp3" false id)

/-- C1: in every reachable state, whatever event is handled next, the log only
grows; a track-page runnable for a page from 2 on is submitted only while the
`Succeed` signal of a page-1 runnable that had not reported is handled (the
first-page lambda), and that runnable is then marked as succeeded;
`OnGetAlbumInfoFinished` submits the page-1 runnable and nothing else; the failure
of a track-page runnable, page 1 included, submits nothing; and in the log every
runnable for a page from 2 on stands behind a page-1 runnable that has reported
success. -/
theorem C1_later_pages_only_after_page_1_success (w : MainWindow) (hw : Reachable w)
    (e : Event) :
    runnables (step w e) = runnables w ++ submitted w e
    ∧ (∀ a i f s, Runnable.GetTrackInfoRunnable a i f s ∈ submitted w e → 2 ≤ i →
        ∃ j maxPageID list a1 f1, e = Event.GetTrackInfo_Succeed j a maxPageID list
          ∧ w.pool_[j]? = some (PoolJob.mk
              (Runnable.GetTrackInfoRunnable a1 1 f1 SucceedSlot.firstPage) JobStatus.started)
          ∧ (step w e).pool_[j]? = some (PoolJob.mk
              (Runnable.GetTrackInfoRunnable a1 1 f1 SucceedSlot.firstPage) JobStatus.succeeded)
          ∧ i ≤ maxPageID)
    ∧ (∀ albumID ai, runnables (OnGetAlbumInfoFinished w albumID ai) =
        runnables w ++ [Runnable.GetTrackInfoRunnable albumID 1 w.isAsc_ SucceedSlot.firstPage])
    ∧ (∀ j albumID ai, e = Event.GetAlbumInfo_Succeed j albumID ai →
        ∀ r ∈ submitted w e,
          r = Runnable.GetTrackInfoRunnable albumID 1 w.isAsc_ SucceedSlot.firstPage)
    ∧ (∀ j albumID err, e = Event.GetTrackInfo_Failed j albumID err → submitted w e = [])
    ∧ laterPagesFollowSuccess (step w e).pool_ := by
  obtain ⟨hfit, _⟩ := poolInv_of_reachable w hw
  obtain ⟨hrun, hsub⟩ := submitted_cases w e
  refine ⟨hrun, ?_, ?_, ?_, ?_, (poolInv_step w e (poolInv_of_reachable w hw)).2⟩
  · intro a i f s hmem hi
    rcases hsub with h0 | ⟨albumID, _, h0⟩ | ⟨j, albumID, ai, a0, _, _, h0⟩ |
      ⟨j, albumID, maxPageID, list, a1, p1, f1, he, hj, h0⟩
    · rw [h0] at hmem; exact absurd hmem (by simp)
    · rw [h0] at hmem; simp at hmem
    · rw [h0] at hmem
      simp only [List.mem_singleton, Runnable.GetTrackInfoRunnable.injEq] at hmem
      omega
    · rw [h0] at hmem
      simp only [List.mem_map, Runnable.GetTrackInfoRunnable.injEq] at hmem
      obtain ⟨i0, hi0, ha, hii, _, _⟩ := hmem
      subst ha hii
      have hp1 : p1 = 1 := by
        have hm : Runnable.GetTrackInfoRunnable a1 p1 f1 SucceedSlot.firstPage ∈ runnables w :=
          List.mem_map.2 ⟨_, List.getElem?_mem (startedJob_getElem w j _ hj), rfl⟩
        exact hfit _ hm
      subst hp1
      have hjlt : j < w.pool_.length := by
        have := startedJob_getElem w j _ hj
        by_contra hc
        rw [List.getElem?_eq_none (by omega)] at this
        exact absurd this (by simp)
      refine ⟨j, maxPageID, list, a1, f1, he, startedJob_getElem w j _ hj, ?_,
        ((mem_loopPages maxPageID i0).1 hi0).2⟩
      subst he
      have hpool : (step w (Event.GetTrackInfo_Succeed j albumID maxPageID list)).pool_ =
          (setStatus w j JobStatus.succeeded).pool_ ++ (loopPages maxPageID).map (fun i =>
            { runnable := Runnable.GetTrackInfoRunnable albumID i w.isAsc_ SucceedSlot.laterPage
              status := JobStatus.started }) := by
        simp only [step, hj]
        rw [firstPageSucceed_pool, setStatus_isAsc]
      rw [hpool, List.getElem?_append_left (by rw [setStatus_length]; exact hjlt)]
      exact setStatus_getElem_self w j _ JobStatus.succeeded hj
  · intro albumID ai
    simp [runnables, OnGetAlbumInfoFinished, poolStart]
  · intro j albumID ai he r hr
    rcases hsub with h0 | ⟨albumID1, he1, h0⟩ | ⟨j1, albumID1, ai1, a0, he1, _, h0⟩ |
      ⟨j1, albumID1, maxPageID, list, a1, p1, f1, he1, _, h0⟩
    · rw [h0] at hr; exact absurd hr (by simp)
    · rw [he] at he1; exact absurd he1 (by simp)
    · rw [he] at he1
      simp only [Event.GetAlbumInfo_Succeed.injEq] at he1
      obtain ⟨_, ha, _⟩ := he1
      subst ha
      rw [h0] at hr
      simpa using hr
    · rw [he] at he1; exact absurd he1 (by simp)
  · intro j albumID err he
    rcases hsub with h0 | ⟨albumID1, he1, h0⟩ | ⟨j1, albumID1, ai1, a0, he1, _, h0⟩ |
      ⟨j1, albumID1, maxPageID, list, a1, p1, f1, he1, _, h0⟩
    · exact h0
    · rw [he] at he1; exact absurd he1 (by simp)
    · rw [he] at he1; exact absurd he1 (by simp)
    · rw [he] at he1; exact absurd he1 (by simp)

/-- Witness for C1: after the click and the album info, the success of page 1 with
two pages submits page 2. -/
theorem C1_later_pages_only_after_page_1_success_witness :
    Reachable (run exampleWindow albumFetched)
    ∧ submitted (run exampleWindow albumFetched) (Event.GetTrackInfo_Succeed 1 12345 2 [0, 1])
        = [Runnable.GetTrackInfoRunnable 12345 2 true SucceedSlot.laterPage]
    ∧ submitted (run exampleWindow albumFetched) (Event.GetTrackInfo_Failed 1 12345 "timeout")
        = [] :=
  ⟨reachable_example albumFetched,
   by decide,
   (C1_later_pages_only_after_page_1_success (run exampleWindow albumFetched)
      (reachable_example albumFetched)
      (Event.GetTrackInfo_Failed 1 12345 "timeout")).2.2.2.2.1 1 12345 "timeout" rfl⟩

/-! ## Late results and the sort direction -/

theorem foldl_pages_audioList (albumID : Int) (pages : List Int) (w : MainWindow) :
    (pages.foldl (firstPageSucceed.body albumID) w).audioList_ = w.audioList_ := by
  induction pages generalizing w with
  | nil => rfl
  | cons i rest ih => rw [List.foldl_cons, ih]; rfl

theorem firstPageSucceed_audioList (w : MainWindow) (albumID maxPageID : Int)
    (list : List TrackPtr) :
    (firstPageSucceed w albumID maxPageID list).audioList_ = w.audioList_ ++ list := by
  simp only [firstPageSucceed]
  rw [foldl_pages_audioList, AddAudioInfoItem_audioList]

/-- A page result of a track-page runnable that has not reported yet is appended
to the visible list, whichever of the two lambdas is connected. -/
theorem trackSucceed_audioList (w : MainWindow) (j : Nat) (a1 p1 : Int) (f1 : Bool)
    (s1 : SucceedSlot) (hj : startedJob w j = some (Runnable.GetTrackInfoRunnable a1 p1 f1 s1))
    (albumID maxPageID : Int) (list : List TrackPtr) :
    (step w (Event.GetTrackInfo_Succeed j albumID maxPageID list)).audioList_ =
      w.audioList_ ++ list := by
  cases s1 with
  | firstPage =>
      simp only [step, hj]
      rw [firstPageSucceed_audioList, setStatus_audioList]
  | laterPage =>
      simp only [step, hj, laterPageSucceed]
      rw [AddAudioInfoItem_audioList, setStatus_audioList]

/-- C5, as stated, fails: after the second click the visible list is empty and the
runnable at position 2 is page 2 of album 111, submitted before the click; when
its result arrives, the track at address 2 is appended to the visible list of the
new fetch. -/
theorem C5_counterexample :
    (run exampleWindow secondFetchStarted).audioList_ = []
    ∧ (run exampleWindow secondFetchStarted).pool_ =
        [PoolJob.mk (Runnable.GetAlbumInfoRunnable 111) JobStatus.succeeded,
         PoolJob.mk (Runnable.GetTrackInfoRunnable 111 1 true SucceedSlot.firstPage)
           JobStatus.succeeded,
         PoolJob.mk (Runnable.GetTrackInfoRunnable 111 2 true SucceedSlot.laterPage)
           JobStatus.started,
         PoolJob.mk (Runnable.GetAlbumInfoRunnable 222) JobStatus.started]
    ∧ (step (run exampleWindow secondFetchStarted)
        (Event.GetTrackInfo_Succeed 2 111 2 [2])).audioList_ = [2] := by
  decide

/-- C5, amended: `on_parseBtn_clicked` with a positive id leaves the visible list
and the table empty; in every state reached afterwards the result of any
track-page runnable that has not reported yet is appended to the visible list,
also when the runnable was submitted by a previous fetch. -/
theorem C5_click_clears_and_late_results_are_appended (w : MainWindow) (albumID : Int)
    (h : 0 < albumID) (evs : List Event) (j : Nat) (a1 p1 : Int) (f1 : Bool) (s1 : SucceedSlot)
    (hj : startedJob (run (on_parseBtn_clicked w albumID) evs) j =
      some (Runnable.GetTrackInfoRunnable a1 p1 f1 s1))
    (a maxPageID : Int) (list : List TrackPtr) :
    (on_parseBtn_clicked w albumID).audioList_ = []
    ∧ (on_parseBtn_clicked w albumID).tableWidget = []
    ∧ (step (run (on_parseBtn_clicked w albumID) evs)
        (Event.GetTrackInfo_Succeed j a maxPageID list)).audioList_ =
        (run (on_parseBtn_clicked w albumID) evs).audioList_ ++ list := by
  refine ⟨?_, ?_, trackSucceed_audioList _ j a1 p1 f1 s1 hj a maxPageID list⟩
  · simp [on_parseBtn_clicked, not_le.2 h, poolStart]
  · simp [on_parseBtn_clicked, not_le.2 h, poolStart]

/-- Witness for C5: the second click of the example, with page 2 of the first
fetch still in flight. -/
theorem C5_click_clears_and_late_results_are_appended_witness :
    (0 : Int) < 222
    ∧ startedJob (run (on_parseBtn_clicked (run exampleWindow (secondFetchStarted.take 4)) 222) [])
        2 = some (Runnable.GetTrackInfoRunnable 111 2 true SucceedSlot.laterPage)
    ∧ (step (run (on_parseBtn_clicked (run exampleWindow (secondFetchStarted.take 4)) 222) [])
        (Event.GetTrackInfo_Succeed 2 111 2 [2])).audioList_ =
        (run (on_parseBtn_clicked (run exampleWindow (secondFetchStarted.take 4)) 222)
          []).audioList_ ++ [2] :=
  ⟨by decide, by decide,
   (C5_click_clears_and_late_results_are_appended (run exampleWindow (secondFetchStarted.take 4))
      222 (by decide) [] 2 111 2 true SucceedSlot.laterPage (by decide) 111 2 [2]).2.2⟩

/-- C6, as stated, fails: with the check box ticked between the submission of page
1 and the success of page 1, page 1 carries the flag `true` and the pages 2 and 3
of the same fetch carry `false`. -/
theorem C6_counterexample :
    runnables (run exampleWindow toggledFetch) =
      [Runnable.GetAlbumInfoRunnable 12345,
       Runnable.GetTrackInfoRunnable 12345 1 true SucceedSlot.firstPage,
       Runnable.GetTrackInfoRunnable 12345 2 false SucceedSlot.laterPage,
       Runnable.GetTrackInfoRunnable 12345 3 false SucceedSlot.laterPage]
    ∧ (runnables (run exampleWindow toggledFetch)).filterMap Runnable.ascFlag
        = [true, false, false] := by
  decide

/-- C6, amended: a track-page runnable carries the value that `isAsc_` has when it
is submitted.  Page 1 carries the value at `OnGetAlbumInfoFinished`; the pages
2..N are submitted together in the first-page lambda and all carry the value at
that moment; when this value is the one page 1 was submitted with, every
track-page runnable of the fetch carries the same flag. -/
theorem C6_flag_is_read_at_submission (w : MainWindow) (j : Nat) (a1 p1 : Int) (f1 : Bool)
    (hj : startedJob w j = some (Runnable.GetTrackInfoRunnable a1 p1 f1 SucceedSlot.firstPage))
    (a maxPageID : Int) (list : List TrackPtr) :
    (∀ (w0 : MainWindow) (albumID : Int) (ai : AlbumInfo),
        runnables (OnGetAlbumInfoFinished w0 albumID ai) =
          runnables w0 ++ [Runnable.GetTrackInfoRunnable albumID 1 w0.isAsc_ SucceedSlot.firstPage])
    ∧ submitted w (Event.GetTrackInfo_Succeed j a maxPageID list) =
        (loopPages maxPageID).map (fun i =>
          Runnable.GetTrackInfoRunnable a i w.isAsc_ SucceedSlot.laterPage)
    ∧ (∀ r ∈ submitted w (Event.GetTrackInfo_Succeed j a maxPageID list),
        r.ascFlag = some w.isAsc_)
    ∧ (w.isAsc_ = f1 →
        ∀ r ∈ Runnable.GetTrackInfoRunnable a1 p1 f1 SucceedSlot.firstPage ::
            submitted w (Event.GetTrackInfo_Succeed j a maxPageID list),
          r.ascFlag = some f1) := by
  have hsub : submitted w (Event.GetTrackInfo_Succeed j a maxPageID list) =
      (loopPages maxPageID).map (fun i =>
        Runnable.GetTrackInfoRunnable a i w.isAsc_ SucceedSlot.laterPage) := by
    apply submitted_of_append
    have hpool : (step w (Event.GetTrackInfo_Succeed j a maxPageID list)).pool_ =
        (setStatus w j JobStatus.succeeded).pool_ ++ (loopPages maxPageID).map (fun i =>
          { runnable := Runnable.GetTrackInfoRunnable a i w.isAsc_ SucceedSlot.laterPage
            status := JobStatus.started }) := by
      simp only [step, hj]
      rw [firstPageSucceed_pool, setStatus_isAsc]
    have : runnables (step w (Event.GetTrackInfo_Succeed j a maxPageID list)) =
        runnables (setStatus w j JobStatus.succeeded) ++ (loopPages maxPageID).map (fun i =>
          Runnable.GetTrackInfoRunnable a i w.isAsc_ SucceedSlot.laterPage) := by
      simp [runnables, hpool, List.map_map, Function.comp]
    rw [this, setStatus_runnables]
  have hflag : ∀ r ∈ submitted w (Event.GetTrackInfo_Succeed j a maxPageID list),
      r.ascFlag = some w.isAsc_ := by
    intro r hr
    rw [hsub] at hr
    simp only [List.mem_map] at hr
    obtain ⟨i, _, rfl⟩ := hr
    rfl
  refine ⟨?_, hsub, hflag, ?_⟩
  · intro w0 albumID ai
    simp [runnables, OnGetAlbumInfoFinished, poolStart]
  · intro he r hr
    simp only [List.mem_cons] at hr
    rcases hr with hr | hr
    · subst hr; rfl
    · rw [← he]; exact hflag r hr

/-- Witness for C6: the example fetch without a change of the check box. -/
theorem C6_flag_is_read_at_submission_witness :
    startedJob (run exampleWindow albumFetched) 1 =
      some (Runnable.GetTrackInfoRunnable 12345 1 true SucceedSlot.firstPage)
    ∧ submitted (run exampleWindow albumFetched) (Event.GetTrackInfo_Succeed 1 12345 3 [0, 1]) =
        (loopPages 3).map (fun i =>
          Runnable.GetTrackInfoRunnable 12345 i (run exampleWindow albumFetched).isAsc_
            SucceedSlot.laterPage) :=
  ⟨by decide,
   (C6_flag_is_read_at_submission (run exampleWindow albumFetched) 1 12345 1 true (by decide)
      12345 3 [0, 1]).2.1⟩

/-! ## The runnables of one fetch -/

theorem startedJob_iff (w : MainWindow) (j : Nat) (r : Runnable) :
    startedJob w j = some r ↔ w.pool_[j]? = some (PoolJob.mk r JobStatus.started) := by
  constructor
  · exact startedJob_getElem w j r
  · intro h
    simp [startedJob, h]

theorem startedJob_lt (w : MainWindow) (j : Nat) (r : Runnable) (h : startedJob w j = some r) :
    j < w.pool_.length := by
  have := startedJob_getElem w j r h
  by_contra hc
  rw [List.getElem?_eq_none (by omega)] at this
  exact absurd this (by simp)

theorem pendingApartFrom_of_quiet (w : MainWindow) (h : quiet w = true) :
    pendingApartFrom none w := by
  intro j r hj
  right
  have hmem := List.getElem?_mem (startedJob_getElem w j r hj)
  have := (List.all_eq_true.1 h) _ hmem
  simpa using this

/-- A calm event submits nothing, keeps the runnable at `ex` as it is and leaves
only runnables for pages from 2 on in flight. -/
theorem calm_step (ex : Option Nat) (w : MainWindow) (e : Event)
    (hp : pendingApartFrom ex w) (hnp : e.isParseClick = false)
    (hex : ∀ k, ex = some k → jobOf e ≠ some k) :
    pendingApartFrom ex (step w e)
    ∧ runnables (step w e) = runnables w
    ∧ (∀ k, ex = some k → (step w e).pool_[k]? = w.pool_[k]?) := by
  rcases step_cases w e with h0 | ⟨j, r, st, hje, hj, hst, h0⟩ | ⟨albumID, he, _⟩ |
    ⟨j, albumID, ai, a0, he, hj, _⟩ | ⟨j, albumID, maxPageID, list, a1, p1, f1, he, hj, _⟩
  · refine ⟨?_, by simp [runnables, h0], fun k _ => by rw [h0]⟩
    intro j r hj
    rw [startedJob_iff, h0, ← startedJob_iff] at hj
    exact hp j r hj
  · refine ⟨?_, ?_, ?_⟩
    · intro j1 r1 hj1
      rw [startedJob_iff, h0, setStatus_getElem] at hj1
      cases hw1 : w.pool_[j1]? with
      | none => rw [hw1] at hj1; exact absurd hj1 (by simp)
      | some x =>
          rw [hw1] at hj1
          simp only [Option.map_some', Option.some.injEq] at hj1
          by_cases e1 : j = j1
          · rw [if_pos e1] at hj1
            have := congrArg PoolJob.status hj1
            exact absurd this hst
          · rw [if_neg e1] at hj1
            subst hj1
            exact hp j1 r1 ((startedJob_iff w j1 r1).2 hw1)
    · have : runnables (step w e) = runnables (setStatus w j st) := by simp [runnables, h0]
      rw [this, setStatus_runnables]
    · intro k hk
      have hne : j ≠ k := fun e1 => hex k hk (by rw [hje, e1])
      rw [h0, setStatus_getElem]
      cases w.pool_[k]? with
      | none => rfl
      | some x => simp [hne]
  · rw [he] at hnp; exact absurd hnp (by simp [Event.isParseClick])
  · rcases hp j _ hj with h1 | h1
    · exact absurd (by rw [he]; rfl) (hex j h1)
    · exact absurd h1 (by simp [Runnable.isLaterPage])
  · rcases hp j _ hj with h1 | h1
    · exact absurd (by rw [he]; rfl) (hex j h1)
    · exact absurd h1 (by simp [Runnable.isLaterPage])

theorem calm_run (ex : Option Nat) (evs : List Event) (w : MainWindow)
    (hp : pendingApartFrom ex w)
    (hall : ∀ e ∈ evs, e.isParseClick = false ∧ ∀ k, ex = some k → jobOf e ≠ some k) :
    pendingApartFrom ex (run w evs)
    ∧ runnables (run w evs) = runnables w
    ∧ (∀ k, ex = some k → (run w evs).pool_[k]? = w.pool_[k]?) := by
  induction evs generalizing w with
  | nil => exact ⟨hp, rfl, fun _ _ => rfl⟩
  | cons e rest ih =>
      obtain ⟨h1, h2, h3⟩ := calm_step ex w e hp (hall e (by simp)).1 (hall e (by simp)).2
      obtain ⟨g1, g2, g3⟩ := ih (step w e) h1 (fun x hx => hall x (by simp [hx]))
      refine ⟨g1, ?_, ?_⟩
      · show runnables (run (step w e) rest) = runnables w
        rw [g2, h2]
      · intro k hk
        show (run (step w e) rest).pool_[k]? = w.pool_[k]?
        rw [g3 k hk, h3 k hk]

theorem calm_spec (k : Nat) (evs : List Event) (h : ∀ e ∈ evs, calm k e = true) :
    ∀ e ∈ evs, e.isParseClick = false ∧ ∀ k1, some k = some k1 → jobOf e ≠ some k1 := by
  intro e he
  have := h e he
  simp only [calm, Bool.and_eq_true, Bool.not_eq_true', decide_eq_true_eq] at this
  refine ⟨this.1, ?_⟩
  intro k1 hk1
  simp only [Option.some.injEq] at hk1
  subst hk1
  exact this.2

theorem run_append (w : MainWindow) (l1 l2 : List Event) :
    run w (l1 ++ l2) = run (run w l1) l2 := by
  simp [run, List.foldl_append]

theorem run_singleton (w : MainWindow) (e : Event) : run w [e] = step w e := rfl

theorem pool_length_of_runnables (w1 w2 : MainWindow) (h : runnables w1 = runnables w2) :
    w1.pool_.length = w2.pool_.length := by
  have := congrArg List.length h
  simpa [runnables] using this

/-- After new runnables were appended to a log `base` in which only runnables for
pages from 2 on are in flight, the runnables in flight are those and the new ones. -/
theorem pending_append (w1 : MainWindow) (base : List PoolJob) (new : List Runnable)
    (ex : Option Nat)
    (hpool : w1.pool_ = base ++ new.map (fun r => PoolJob.mk r JobStatus.started))
    (hbase : ∀ (j : Nat) (r : Runnable), base[j]? = some (PoolJob.mk r JobStatus.started) → r.isLaterPage = true)
    (hnew : ∀ (idx : Nat) (r : Runnable), new[idx]? = some r → ex = some (base.length + idx) ∨ r.isLaterPage = true) :
    pendingApartFrom ex w1 := by
  intro j r hj
  rw [startedJob_iff, hpool] at hj
  by_cases hlt : j < base.length
  · rw [List.getElem?_append_left hlt] at hj
    exact Or.inr (hbase j r hj)
  · have hge : base.length ≤ j := by omega
    rw [List.getElem?_append_right hge, List.getElem?_map] at hj
    cases hn : new[j - base.length]? with
    | none => rw [hn] at hj; exact absurd hj (by simp)
    | some r1 =>
        rw [hn] at hj
        simp only [Option.map_some', Option.some.injEq, PoolJob.mk.injEq, and_true] at hj
        subst hj
        rcases hnew _ _ hn with h1 | h1
        · left
          rw [h1]
          congr 1
          omega
        · exact Or.inr h1

theorem base_of_pending (w : MainWindow) (hp : pendingApartFrom none w) :
    ∀ (j : Nat) (r : Runnable),
      w.pool_[j]? = some (PoolJob.mk r JobStatus.started) → r.isLaterPage = true := by
  intro j r hj
  rcases hp j r ((startedJob_iff w j r).2 hj) with h | h
  · exact absurd h (by simp)
  · exact h

theorem base_of_setStatus (w : MainWindow) (k : Nat) (st : JobStatus)
    (hst : st ≠ JobStatus.started) (hp : pendingApartFrom (some k) w) :
    ∀ (j : Nat) (r : Runnable), (setStatus w k st).pool_[j]? = some (PoolJob.mk r JobStatus.started) →
      r.isLaterPage = true := by
  intro j r hj
  rw [setStatus_getElem] at hj
  cases hw1 : w.pool_[j]? with
  | none => rw [hw1] at hj; exact absurd hj (by simp)
  | some x =>
      rw [hw1] at hj
      simp only [Option.map_some', Option.some.injEq] at hj
      by_cases e1 : k = j
      · rw [if_pos e1] at hj
        have := congrArg PoolJob.status hj
        exact absurd this hst
      · rw [if_neg e1] at hj
        subst hj
        rcases hp j r ((startedJob_iff w j r).2 hw1) with h | h
        · simp only [Option.some.injEq] at h
          exact absurd h e1
        · exact h

/-- The click that starts a fetch, in a quiet state with the button enabled. -/
theorem click_step (w : MainWindow) (hp : pendingApartFrom none w)
    (hbtn : w.parseBtnEnabled = true) (albumID : Int) (hid : 0 < albumID) :
    runnables (step w (Event.parseBtn_clicked albumID)) =
      runnables w ++ [Runnable.GetAlbumInfoRunnable albumID]
    ∧ startedJob (step w (Event.parseBtn_clicked albumID)) w.pool_.length =
        some (Runnable.GetAlbumInfoRunnable albumID)
    ∧ pendingApartFrom (some w.pool_.length) (step w (Event.parseBtn_clicked albumID)) := by
  have hpool : (step w (Event.parseBtn_clicked albumID)).pool_ =
      w.pool_ ++ [Runnable.GetAlbumInfoRunnable albumID].map
        (fun r => PoolJob.mk r JobStatus.started) := by
    simp [step, hbtn, on_parseBtn_clicked, not_le.2 hid, poolStart]
  refine ⟨by simp [runnables, hpool], ?_, ?_⟩
  · rw [startedJob_iff, hpool, List.getElem?_append_right (le_refl _)]
    simp
  · apply pending_append _ w.pool_ _ _ hpool (base_of_pending w hp)
    intro idx r h
    left
    cases idx with
    | zero => rfl
    | succ n => simp at h

/-- The success of the album-info runnable at position `k`. -/
theorem albumSucceed_step (w : MainWindow) (k : Nat) (a0 : Int)
    (hs : startedJob w k = some (Runnable.GetAlbumInfoRunnable a0))
    (hp : pendingApartFrom (some k) w) (albumID : Int) (ai : AlbumInfo) :
    runnables (step w (Event.GetAlbumInfo_Succeed k albumID ai)) =
      runnables w ++ [Runnable.GetTrackInfoRunnable albumID 1 w.isAsc_ SucceedSlot.firstPage]
    ∧ startedJob (step w (Event.GetAlbumInfo_Succeed k albumID ai)) w.pool_.length =
        some (Runnable.GetTrackInfoRunnable albumID 1 w.isAsc_ SucceedSlot.firstPage)
    ∧ pendingApartFrom (some w.pool_.length) (step w (Event.GetAlbumInfo_Succeed k albumID ai)) := by
  have hpool : (step w (Event.GetAlbumInfo_Succeed k albumID ai)).pool_ =
      (setStatus w k JobStatus.succeeded).pool_ ++
        [Runnable.GetTrackInfoRunnable albumID 1 w.isAsc_ SucceedSlot.firstPage].map
          (fun r => PoolJob.mk r JobStatus.started) := by
    simp only [step, hs]
    rfl
  have hlen := setStatus_length w k JobStatus.succeeded
  refine ⟨?_, ?_, ?_⟩
  · have : runnables (step w (Event.GetAlbumInfo_Succeed k albumID ai)) =
        runnables (setStatus w k JobStatus.succeeded) ++
          [Runnable.GetTrackInfoRunnable albumID 1 w.isAsc_ SucceedSlot.firstPage] := by
      simp [runnables, hpool]
    rw [this, setStatus_runnables]
  · rw [startedJob_iff, hpool, List.getElem?_append_right (by rw [hlen]), hlen]
    simp
  · have := pending_append _ _ _ (some w.pool_.length) hpool
      (base_of_setStatus w k JobStatus.succeeded (by decide) hp)
      (by
        intro idx r h
        left
        cases idx with
        | zero => rw [hlen]; rfl
        | succ n => simp at h)
    exact this

/-- The success of the page-1 runnable at position `k`. -/
theorem firstPageSucceed_step (w : MainWindow) (k : Nat) (a0 p0 : Int) (f0 : Bool)
    (hs : startedJob w k = some (Runnable.GetTrackInfoRunnable a0 p0 f0 SucceedSlot.firstPage))
    (hp : pendingApartFrom (some k) w) (albumID maxPageID : Int) (list : List TrackPtr) :
    runnables (step w (Event.GetTrackInfo_Succeed k albumID maxPageID list)) =
      runnables w ++ (loopPages maxPageID).map (fun i =>
        Runnable.GetTrackInfoRunnable albumID i w.isAsc_ SucceedSlot.laterPage)
    ∧ pendingApartFrom none (step w (Event.GetTrackInfo_Succeed k albumID maxPageID list)) := by
  have hpool : (step w (Event.GetTrackInfo_Succeed k albumID maxPageID list)).pool_ =
      (setStatus w k JobStatus.succeeded).pool_ ++
        ((loopPages maxPageID).map (fun i =>
          Runnable.GetTrackInfoRunnable albumID i w.isAsc_ SucceedSlot.laterPage)).map
          (fun r => PoolJob.mk r JobStatus.started) := by
    simp only [step, hs]
    rw [firstPageSucceed_pool, setStatus_isAsc]
    simp [List.map_map, Function.comp]
  refine ⟨?_, ?_⟩
  · have : runnables (step w (Event.GetTrackInfo_Succeed k albumID maxPageID list)) =
        runnables (setStatus w k JobStatus.succeeded) ++ (loopPages maxPageID).map (fun i =>
          Runnable.GetTrackInfoRunnable albumID i w.isAsc_ SucceedSlot.laterPage) := by
      simp [runnables, hpool, List.map_map, Function.comp]
    rw [this, setStatus_runnables]
  · apply pending_append _ _ _ none hpool
      (base_of_setStatus w k JobStatus.succeeded (by decide) hp)
    intro idx r h
    right
    have hm := List.getElem?_mem h
    simp only [List.mem_map] at hm
    obtain ⟨i, _, rfl⟩ := hm
    rfl

/-- A fetch that runs alone: it starts with a click in a state in which no
album-info and no page-1 runnable is in flight; the album-info runnable succeeds,
then the page-1 runnable succeeds; other events may come in between and
afterwards, but no further click.  Then the log grows by the album-info runnable,
the page-1 runnable and one runnable for each of the pages 2..N, in this order. -/
theorem isolated_fetch_runnables (w : MainWindow) (hq : quiet w = true)
    (hbtn : w.parseBtnEnabled = true) (albumID : Int) (hid : 0 < albumID)
    (m1 : List Event) (h1 : ∀ e ∈ m1, calm w.pool_.length e = true)
    (a : Int) (ai : AlbumInfo)
    (m2 : List Event) (h2 : ∀ e ∈ m2, calm (w.pool_.length + 1) e = true)
    (a1 N : Int) (list : List TrackPtr)
    (rest : List Event) (h3 : ∀ e ∈ rest, e.isParseClick = false) :
    ∃ f1 f2,
      runnables (run w ([Event.parseBtn_clicked albumID] ++ m1
          ++ [Event.GetAlbumInfo_Succeed w.pool_.length a ai] ++ m2
          ++ [Event.GetTrackInfo_Succeed (w.pool_.length + 1) a1 N list] ++ rest)) =
        runnables w ++ [Runnable.GetAlbumInfoRunnable albumID]
          ++ [Runnable.GetTrackInfoRunnable a 1 f1 SucceedSlot.firstPage]
          ++ (loopPages N).map (fun i =>
              Runnable.GetTrackInfoRunnable a1 i f2 SucceedSlot.laterPage) := by
  have hp0 := pendingApartFrom_of_quiet w hq
  obtain ⟨r1, s1, p1⟩ := click_step w hp0 hbtn albumID hid
  have len1 : (step w (Event.parseBtn_clicked albumID)).pool_.length = w.pool_.length + 1 := by
    have := congrArg List.length r1
    simpa [runnables] using this
  obtain ⟨p2, r2, k2⟩ := calm_run (some w.pool_.length) m1 _ p1 (calm_spec _ m1 h1)
  have s2 : startedJob (run (step w (Event.parseBtn_clicked albumID)) m1) w.pool_.length =
      some (Runnable.GetAlbumInfoRunnable albumID) := by
    rw [startedJob_iff, k2 _ rfl, ← startedJob_iff]
    exact s1
  have len2 : (run (step w (Event.parseBtn_clicked albumID)) m1).pool_.length =
      w.pool_.length + 1 := by
    rw [pool_length_of_runnables _ _ r2, len1]
  obtain ⟨r3, s3, p3⟩ := albumSucceed_step _ _ _ s2 p2 a ai
  rw [len2] at s3 p3
  obtain ⟨p4, r4, k4⟩ := calm_run (some (w.pool_.length + 1)) m2 _ p3 (calm_spec _ m2 h2)
  have s4 := s3
  rw [startedJob_iff, ← k4 _ rfl, ← startedJob_iff] at s4
  obtain ⟨r5, p5⟩ := firstPageSucceed_step _ _ _ _ _ s4 p4 a1 N list
  obtain ⟨_, r6, _⟩ := calm_run none rest _ p5
    (fun e he => ⟨h3 e he, fun k hk => absurd hk (by simp)⟩)
  refine ⟨(run (step w (Event.parseBtn_clicked albumID)) m1).isAsc_,
    (run (step (run (step w (Event.parseBtn_clicked albumID)) m1)
      (Event.GetAlbumInfo_Succeed w.pool_.length a ai)) m2).isAsc_, ?_⟩
  simp only [run_append, run_singleton]
  rw [r6, r5, r4, r3, r2, r1]

end Xmly
